import Mathlib

/-!
Verification of the serverless-lumigo plugin core (src/index.js) against its
natural-language specification.

Strings are modelled as lists of characters (`Str`), so that the JavaScript
string primitives used by the plugin (`lastIndexOf`, `substr`, `split`/`join`,
`startsWith`, `includes`) become executable Lean functions amenable both to
evaluation on concrete inputs and to general proofs.

Side effects (file writes via `fs.outputFile`, directory removal via
`fs.remove`, process execution via `childProcess.execSync`, and log lines via
`serverless.cli.log`) are modelled as an explicit, ordered effect list.
`this.verboseLog` is a no-op unless the SLS_DEBUG environment variable is set;
the model corresponds to runs with SLS_DEBUG unset, so verbose-only lines
produce no effect.
-/

set_option maxRecDepth 1000000

/-- Character-list model of JavaScript strings. -/
abbrev Str := List Char

/-- Conversion from Lean string literals into the character-list model. -/
def str (s : String) : Str := s.toList

/-- JavaScript `String.prototype.lastIndexOf` for a single character:
the index of the last occurrence, or `-1` when the character is absent. -/
def jsLastIndexOf : Str → Char → Int
  | [], _ => -1
  | a :: rest, c =>
    let r := jsLastIndexOf rest c
    if 0 ≤ r then r + 1
    else if a = c then 0 else -1

/-- JavaScript `s.substr(0, len)`: the first `len` characters; a non-positive
length yields the empty string. -/
def jsSubstrTo (s : Str) (len : Int) : Str :=
  if len ≤ 0 then [] else s.take len.toNat

/-- JavaScript `s.substr(start)` for the non-negative `start` values the plugin
produces (`lastIndexOf + 1`, which is at least `0`). -/
def jsSubstrFrom (s : Str) (start : Int) : Str :=
  s.drop start.toNat

/-- JavaScript `String.prototype.startsWith`. -/
def strStarts (pre s : Str) : Bool := decide (pre <+: s)

/-- Node `path.basename` for POSIX paths that do not end in a separator
(the only shape of handler strings the plugin deals with): the maximal
suffix containing no `/`. -/
def pathBasename (s : Str) : Str := (s.reverse.takeWhile (fun c => c ≠ '/')).reverse

/-- Node `path.join a b` for the simple two-segment joins performed by the
plugin (no `..`, no duplicate separators); joining onto `.` — which
`path.dirname` yields for a separator-free handler — normalizes the
leading `./` away. -/
def pathJoin (a b : Str) : Str := if a = str "." then b else a ++ '/' :: b

/-- Node `path.relative base p` for the only shape the plugin produces:
`p` lying directly under `base`. -/
def pathRelative (base p : Str) : Str :=
  if (base ++ ['/']) <+: p then p.drop (base.length + 1) else p

/-- JavaScript `Array.prototype.join(",")`. -/
def joinComma : List Str → Str
  | [] => []
  | [x] => x
  | x :: y :: rest => x ++ ',' :: joinComma (y :: rest)

/-- Decimal rendering of a number, as JavaScript template interpolation does. -/
def natStr (n : Nat) : Str := (Nat.repr n).toList

/-- Executable substring test (JavaScript `String.prototype.includes`). -/
def hasSub (needle hay : Str) : Bool :=
  (List.range (hay.length + 1)).any fun i => needle.isPrefixOf (hay.drop i)

/-! ## Data model -/

/-- A declared function (an entry of `serverless.service.functions`).
Besides `handler`, the plugin core reads no other field of a function
declaration; `lumigoEnabled` models the per-function `lumigo.enabled`
opt-out flag of the spec, `layers` and `environment` the fields touched
by the spec's layer mode, and `extraFields` stands for every remaining
field (events, tags, memory size, ...) as an opaque key/value list. -/
structure FunctionDecl where
  handler : Str
  lumigoEnabled : Option Bool := none
  layers : List Str := []
  environment : List (Str × Str) := []
  extraFields : List (Str × Str) := []
deriving DecidableEq

/-- The `service.package` object; the JavaScript field `include` is called
`includeList` here because `include` is a Lean keyword. -/
structure Package where
  individually : Bool := false
  includeList : Option (List Str) := none
deriving DecidableEq

/-- The slice of the serverless service the plugin reads and mutates:
the function registry (an ordered association list keyed by local name,
mirroring a JavaScript object), the provider runtime and region, and the
configuration under `custom.lumigo` / `custom.pythonRequirements`. -/
structure Service where
  functionsKV : List (Str × FunctionDecl)
  providerRuntime : Str
  region : Str := []
  token : Option Str := none
  edgeHost : Option Str := none
  nodePackageManager : Option Str := none
  plugins : List Str := []
  pythonRequirementsFileName : Option Str := none
  nodeLayerVersion : Option Nat := none
  pythonLayerVersion : Option Nat := none
  package : Option Package := none
deriving DecidableEq

/-- The environment the plugin runs in: the service path (from
`serverless.config.servicePath`), whether `@lumigo/tracer` is listed in the
project's `package.json` dependencies (the memoized `isNodeTracerInstalled`
getter), and the readable files (for the python requirements checks). -/
structure Env where
  servicePath : Str
  nodeTracerInstalled : Bool := false
  files : List (Str × Str) := []
deriving DecidableEq

/-- An observable side effect, in execution order: `fs.outputFile`,
`childProcess.execSync`, `fs.remove`, or a `serverless.cli.log` line. -/
inductive Effect where
  | outputFile (path content : Str)
  | execSync (cmd : Str)
  | removeDir (path : Str)
  | logLine (msg : Str)
deriving DecidableEq

instance {ε α : Type} [DecidableEq ε] [DecidableEq α] : DecidableEq (Except ε α) := fun x y =>
  match x, y with
  | .ok a, .ok b => decidable_of_iff (a = b) (by simp)
  | .error a, .error b => decidable_of_iff (a = b) (by simp)
  | .ok _, .error _ => .isFalse (by simp)
  | .error _, .ok _ => .isFalse (by simp)

/-- Is the effect only a log line (neither a write, a removal nor a process
execution)? -/
def Effect.isLog : Effect → Bool
  | .logLine _ => true
  | _ => false

/-- `this.log`: a log line with the `serverless-lumigo: ` prefix. -/
def slsLog (m : Str) : Effect := .logLine (str "serverless-lumigo: " ++ m)

/-- `this.folderPath = path.join(servicePath, "_lumigo")`. -/
def folderPath (servicePath : Str) : Str := pathJoin servicePath (str "_lumigo")

/-! ## Handler Reference Parser -/

/-- Exported-function-name half of the Handler Reference Parser
(src/index.js lines 299 and 304, identically lines 333 and 341):
`path.basename(handler).substr(basename.lastIndexOf(".") + 1)`. -/
def parsedFuncName (handlerRef : Str) : Str :=
  jsSubstrFrom (pathBasename handlerRef) (jsLastIndexOf (pathBasename handlerRef) '.' + 1)

/-- Module-path half of the Handler Reference Parser (src/index.js line 302,
identically line 337): `handler.substr(0, handler.lastIndexOf("."))`. -/
def parsedModulePath (handlerRef : Str) : Str :=
  jsSubstrTo handlerRef (jsLastIndexOf handlerRef '.')

/-- Python module path (src/index.js lines 336-339): the parsed module path
with every path separator replaced by a dot, via `.split("/").join(".")`. -/
def pyModulePath (handlerRef : Str) : Str :=
  List.intercalate (str ".") ((parsedModulePath handlerRef).splitOn '/')

/-! ## Wrapper Code Generator -/

/-- src/index.js lines 282-291: the tracer constructor arguments. The
`token === undefined` guard at line 283 is unreachable from `wrapFunctions`,
which rejects a missing token before calling this, so the parameter here is
the already-checked token. `if (edgeHost)` is a JavaScript truthiness test:
an absent or empty edgeHost is skipped. -/
def getNodeTracerParameters (token : Str) (edgeHost : Option Str) : Str :=
  let configuration := [str "token: \x27" ++ token ++ str "\x27"]
  let configuration :=
    match edgeHost with
    | some e => if e = [] then configuration
                else configuration ++ [str "edgeHost: \x27" ++ e ++ str "\x27"]
    | none => configuration
  joinComma configuration

/-- The nodejs wrapper source text (the template literal at src/index.js
lines 305-312). -/
def nodeWrapperContent (handlerRef token : Str) (edgeHost : Option Str) : Str :=
  str "\nconst tracer = require(\"@lumigo/tracer\")(\x7b\n\t" ++
    getNodeTracerParameters token edgeHost ++
  str "\n\x7d);\nconst handler = require(\x27../" ++ parsedModulePath handlerRef ++
  str "\x27)." ++ parsedFuncName handlerRef ++
  str ";\n\nmodule.exports." ++ parsedFuncName handlerRef ++
  str " = tracer.trace(handler);\n    "

/-- src/index.js lines 293-325: returns the new handler reference and writes
the wrapper artifact `_lumigo/<localName>.js`. -/
def createWrappedNodejsFunction (servicePath localName : Str) (func : FunctionDecl)
    (token : Str) (edgeHost : Option Str) : Str × List Effect :=
  let wrappedFunction := nodeWrapperContent func.handler token edgeHost
  let fileName := localName ++ str ".js"
  let filePath := pathJoin (folderPath servicePath) fileName
  let newFilePath := pathRelative servicePath filePath
  (jsSubstrTo newFilePath (jsLastIndexOf newFilePath '.' + 1) ++ parsedFuncName func.handler,
   [.outputFile filePath wrappedFunction])

/-- The python wrapper source text (the template literal at src/index.js
lines 343-350). -/
def pythonWrapperContent (handlerRef token : Str) : Str :=
  str "\nfrom lumigo_tracer import lumigo_tracer\nfrom " ++ pyModulePath handlerRef ++
  str " import " ++ parsedFuncName handlerRef ++
  str " as userHandler\n\n@lumigo_tracer(token=\x27" ++ token ++
  str "\x27)\ndef " ++ parsedFuncName handlerRef ++
  str "(event, context):\n  return userHandler(event, context)\n    "

/-- src/index.js lines 327-363: returns the new handler reference and writes
the wrapper artifact `_lumigo/<localName>.py`. -/
def createWrappedPythonFunction (servicePath localName : Str) (func : FunctionDecl)
    (token : Str) : Str × List Effect :=
  let wrappedFunction := pythonWrapperContent func.handler token
  let fileName := localName ++ str ".py"
  let filePath := pathJoin (folderPath servicePath) fileName
  let newFilePath := pathRelative servicePath filePath
  (jsSubstrTo newFilePath (jsLastIndexOf newFilePath '.' + 1) ++ parsedFuncName func.handler,
   [.outputFile filePath wrappedFunction])

/-! ## Rewrite Orchestrator -/

/-- Node `path.dirname` for the relative paths appearing in handler
references: the part before the last `/`, or `.` when there is none. -/
def pathDirname (s : Str) : Str :=
  if '/' ∈ s then jsSubstrTo s (jsLastIndexOf s '/') else str "."

/-- src/index.js lines 135-155 (`getFunctionsToWrap`), parameterized so the
spec-modelled eligibility variant below can reuse the shared shape. The
`keep` predicate is the `.filter(localName => functionNames.includes(localName))`
step; `cloneDeep` plus the `localName` attachment is the identity on the
model's (localName, declaration) pairs. -/
def getFunctionsToWrapWith (keep : List Str → Str × FunctionDecl → Bool)
    (service : Service) (functionNames : Option (List Str)) :
    Str × List (Str × FunctionDecl) × List Effect :=
  let names := functionNames.getD (service.functionsKV.map Prod.fst)
  let functions := service.functionsKV.filter (keep names)
  if strStarts (str "nodejs") service.providerRuntime then
    (str "nodejs", functions, [])
  else if strStarts (str "python3") service.providerRuntime then
    (str "python", functions, [])
  else
    (str "unsupported", [],
     [slsLog (str "unsupported runtime: [" ++ service.providerRuntime ++ str "], skipped...")])

/-- src/index.js lines 135-155: filter the declared functions down to the
requested names (all declared names when no filter is given) and classify the
provider runtime by prefix. -/
def getFunctionsToWrap (service : Service) (functionNames : Option (List Str)) :
    Str × List (Str × FunctionDecl) × List Effect :=
  getFunctionsToWrapWith (fun names p => decide (p.1 ∈ names)) service functionNames

/-- `custom.lumigo.nodePackageManager` lower-cased, defaulting to `npm`
(src/index.js lines 45-51). -/
def nodePackageManagerOf (service : Service) : Str :=
  (service.nodePackageManager.getD (str "npm")).map Char.toLower

/-- The error thrown when no token is configured (src/index.js lines 76-80). -/
def msgNoToken : Str :=
  str "serverless-lumigo: Unable to find token. Please follow https://github.com/lumigo-io/serverless-lumigo"

/-- The error thrown on an unrecognized package manager (lines 190-193, 211-214). -/
def msgNoPackageManager : Str :=
  str "No Node.js package manager found. Please install either NPM or Yarn."

/-- src/index.js lines 177-197 (`installLumigoNodejs`): skipped entirely when
`@lumigo/tracer` is already a declared dependency; otherwise shells out to the
configured package manager, or fails on an unrecognized one. The returned
effects happened before any error was thrown. -/
def installLumigoNodejs (env : Env) (service : Service) : List Effect × Except Str Unit :=
  if env.nodeTracerInstalled then ([], .ok ())
  else
    let logs := [slsLog (str "installing @lumigo/tracer...")]
    if nodePackageManagerOf service = str "npm" then
      (logs ++ [.execSync (str "npm install --no-save @lumigo/tracer@latest")], .ok ())
    else if nodePackageManagerOf service = str "yarn" then
      (logs ++ [.execSync (str "yarn add @lumigo/tracer@latest")], .ok ())
    else (logs, .error msgNoPackageManager)

/-- src/index.js lines 199-218 (`uninstallLumigoNodejs`): a no-op when the
tracer was already in the project manifest before the plugin installed it. -/
def uninstallLumigoNodejs (env : Env) (service : Service) : List Effect × Except Str Unit :=
  if env.nodeTracerInstalled then ([], .ok ())
  else
    let logs := [slsLog (str "uninstalling @lumigo/tracer...")]
    if nodePackageManagerOf service = str "npm" then
      (logs ++ [.execSync (str "npm uninstall @lumigo/tracer")], .ok ())
    else if nodePackageManagerOf service = str "yarn" then
      (logs ++ [.execSync (str "yarn remove @lumigo/tracer")], .ok ())
    else (logs, .error msgNoPackageManager)

/-- src/index.js lines 226-243 (`ensureTracerInstalled`): the requirements
file must exist (`fs.pathExistsSync`, modelled as a lookup in the readable
files) and must mention `lumigo_tracer`. -/
def ensureTracerInstalled (env : Env) (slsPythonInstalled : Bool) (fileName : Str) :
    Except Str Unit :=
  match List.lookup fileName env.files with
  | none =>
    .error (fileName ++ str " is not found." ++
      (if slsPythonInstalled then []
       else str "\nConsider using the serverless-python-requirements plugin to help you package Python dependencies."))
  | some requirements =>
    if hasSub (str "lumigo_tracer") requirements then .ok ()
    else .error (str "lumigo_tracer is not installed. Please check " ++ fileName ++ str ".")

/-- The per-function requirements checks of the `package.individually` branch
(src/index.js lines 251-270), sequential, aborting at the first failure. -/
def checkRequirementsEach (env : Env) (slsPythonInstalled : Bool) (service : Service) :
    List (Str × FunctionDecl) → Except Str Unit
  | [] => .ok ()
  | (_, fn) :: rest =>
    let dir := pathDirname fn.handler
    let defaultRequirementsFilename := pathJoin dir (str "requirements.txt")
    let requirementsFilename :=
      service.pythonRequirementsFileName.getD defaultRequirementsFilename
    match ensureTracerInstalled env slsPythonInstalled requirementsFilename with
    | .ok _ => checkRequirementsEach env slsPythonInstalled service rest
    | .error e => .error e

/-- src/index.js lines 220-280 (`ensureLumigoPythonIsInstalled`). -/
def ensureLumigoPythonIsInstalled (env : Env) (service : Service) :
    List Effect × Except Str Unit :=
  let logs := [slsLog (str "checking if lumigo_tracer is installed...")]
  let slsPythonInstalled := decide ((str "serverless-python-requirements") ∈ service.plugins)
  let packageIndividually := (service.package.map Package.individually).getD false
  if packageIndividually then
    let logs := logs ++
      [slsLog (str "functions are packed individually, ensuring each function has a requirement.txt...")]
    let (_, functions, logs2) := getFunctionsToWrap service none
    (logs ++ logs2, checkRequirementsEach env slsPythonInstalled service functions)
  else
    let logs := logs ++ [slsLog (str "ensuring there is a requirement.txt or equivalent...")]
    let requirementsFilename :=
      service.pythonRequirementsFileName.getD (str "requirements.txt")
    (logs, ensureTracerInstalled env slsPythonInstalled requirementsFilename)

/-- The in-place handler overwrite
`this.serverless.service.functions[func.localName].handler = handler`
(src/index.js lines 95 and 110). -/
def setFunctionHandler (kv : List (Str × FunctionDecl)) (localName handler : Str) :
    List (Str × FunctionDecl) :=
  kv.map fun p => if p.1 = localName then (p.1, { p.2 with handler := handler }) else p

/-- The per-function wrapping loop (src/index.js lines 85-96 / 100-111):
create the wrapper for each eligible function in order, then point the
function's handler at it. -/
def wrapLoop (create : Str → FunctionDecl → Str × List Effect) :
    List (Str × FunctionDecl) → List (Str × FunctionDecl) →
    List (Str × FunctionDecl) × List Effect
  | [], kv => (kv, [])
  | (n, f) :: rest, kv =>
    let (h, effs) := create n f
    let (kvF, effsRest) := wrapLoop create rest (setFunctionHandler kv n h)
    (kvF, effs ++ effsRest)

/-- src/index.js lines 114-118: append `_lumigo/*` to `package.include`
(created as an empty list when absent) whenever a package object exists. -/
def updatePackageInclude (service : Service) : Service :=
  match service.package with
  | none => service
  | some p =>
    let p2 := { p with includeList := some ((p.includeList.getD []) ++ [str "_lumigo/*"]) }
    { service with package := some p2 }

/-- src/index.js lines 61-119 (`wrapFunctions`), parameterized by the
eligibility computation so the spec-modelled variant below can reuse it.
Returns the effects in execution order together with the resulting service,
or the thrown error; every throw in the source happens before any handler
mutation, so the service is unchanged on the error path. -/
def wrapFunctionsWith
    (getFns : Service → Option (List Str) → Str × List (Str × FunctionDecl) × List Effect)
    (env : Env) (service : Service) (functionNames : Option (List Str)) :
    List Effect × Except Str Service :=
  let (runtime, functions, logs0) := getFns service functionNames
  let logs := logs0 ++
    [slsLog (str "there are " ++ natStr functions.length ++ str " function(s) to wrap...")]
  if functions.length = 0 then (logs, .ok service)
  else
    match service.token with
    | none => (logs, .error msgNoToken)
    | some token =>
      if runtime = str "nodejs" then
        let (installEffs, installRes) := installLumigoNodejs env service
        match installRes with
        | .error e => (logs ++ installEffs, .error e)
        | .ok _ =>
          let (kv, wrapEffs) := wrapLoop
            (fun n f => createWrappedNodejsFunction env.servicePath n f token service.edgeHost)
            functions service.functionsKV
          (logs ++ installEffs ++ wrapEffs,
           .ok (updatePackageInclude { service with functionsKV := kv }))
      else if runtime = str "python" then
        let (ensureEffs, ensureRes) := ensureLumigoPythonIsInstalled env service
        match ensureRes with
        | .error e => (logs ++ ensureEffs, .error e)
        | .ok _ =>
          let (kv, wrapEffs) := wrapLoop
            (fun n f => createWrappedPythonFunction env.servicePath n f token)
            functions service.functionsKV
          (logs ++ ensureEffs ++ wrapEffs,
           .ok (updatePackageInclude { service with functionsKV := kv }))
      else
        (logs, .ok (updatePackageInclude service))

/-- src/index.js lines 61-119: the wrap pass as implemented. -/
def wrapFunctions (env : Env) (service : Service) (functionNames : Option (List Str)) :
    List Effect × Except Str Service :=
  wrapFunctionsWith getFunctionsToWrap env service functionNames

/-- src/index.js lines 121-133 (`afterCreateDeploymentArtifacts`): the
cleanup pass. -/
def afterCreateDeploymentArtifacts (env : Env) (service : Service) :
    List Effect × Except Str Unit :=
  let (runtime, functions, logs0) := getFunctionsToWrap service none
  if functions.length = 0 then (logs0, .ok ())
  else
    let effs := logs0 ++ [.removeDir (folderPath env.servicePath)]
    if runtime = str "nodejs" then
      let (uninstallEffs, uninstallRes) := uninstallLumigoNodejs env service
      (effs ++ uninstallEffs, uninstallRes)
    else (effs, .ok ())

/-! ## Spec-modelled eligibility and layer mode

The per-function opt-out flag and the "use layers" operational mode are
described by the spec and exercised by the repository's newer test suite, but
their implementation is not part of src/index.js; the definitions below are
modelled from the spec's words. -/

/-- Modelled from the spec: a function "carrying an explicit disable flag"
(spec §4.3, §7 SkippedFunction); the tests set it as `lumigo.enabled: false`
on the function declaration. -/
def optedOut (f : FunctionDecl) : Bool := f.lumigoEnabled = some false

/-- Modelled from the spec: eligibility filtering including the per-function
opt-out — "Excludes any function carrying an explicit disable flag"
(spec §4.3). Identical to `getFunctionsToWrap` except that opted-out
functions are dropped; this exclusion is missing from src/index.js. -/
def getFunctionsToWrapSpec (service : Service) (functionNames : Option (List Str)) :
    Str × List (Str × FunctionDecl) × List Effect :=
  getFunctionsToWrapWith (fun names p => decide (p.1 ∈ names) && ! optedOut p.2)
    service functionNames

/-- Modelled from the spec: the wrap pass with the spec's opt-out-aware
eligibility filtering. -/
def wrapFunctionsSpec (env : Env) (service : Service) (functionNames : Option (List Str)) :
    List Effect × Except Str Service :=
  wrapFunctionsWith getFunctionsToWrapSpec env service functionNames

/-- Modelled from the spec: the "fixed well-known entry point supplied by a
prebuilt layer" (spec §4.3 layer mode); concrete values as asserted by the
repository's tests. -/
def layerEntryPoint (runtime : Str) : Str :=
  if runtime = str "nodejs" then str "lumigo-auto-instrument.handler"
  else str "/opt/python/lumigo_tracer._handler"

/-- Modelled from the spec: the environment variable "capturing the pre-wrap
handler" (spec §8), named as in the repository's tests. -/
def lumigoOriginalHandlerKey : Str := str "LUMIGO_ORIGINAL_HANDLER"

/-- Modelled from the spec: the layer name per runtime family, as in the
expected account/region/name ARN pattern of the tests. -/
def layerName (runtime : Str) : Str :=
  if runtime = str "nodejs" then str "lumigo-node-tracer" else str "lumigo-python-tracer"

/-- Modelled from the spec: the single attached layer reference — "either a
caller-pinned version or a sentinel 'latest' marker resolved externally"
(spec §4.3). -/
def layerRef (region runtime : Str) (version : Option Nat) : Str :=
  str "arn:aws:lambda:" ++ region ++ str ":114300393969:layer:" ++ layerName runtime ++
    str ":" ++ (match version with | some v => natStr v | none => str "latest")

/-- Modelled from the spec: the caller-pinned layer version for the runtime
family (`nodeLayerVersion` / `pythonLayerVersion` configuration keys). -/
def layerVersionOf (service : Service) (runtime : Str) : Option Nat :=
  if runtime = str "nodejs" then service.nodeLayerVersion else service.pythonLayerVersion

/-- Modelled from the spec: the per-function rewrite of layer mode — handler
to the fixed entry point, exactly one layer reference attached, original
handler recorded in an environment variable. -/
def wrapFunctionUseLayers (entryPoint arn : Str) (f : FunctionDecl) : FunctionDecl :=
  { f with handler := entryPoint,
           layers := [arn],
           environment := f.environment ++ [(lumigoOriginalHandlerKey, f.handler)] }

/-- Modelled from the spec: the alternate "use layers" operational mode of
`wrapFunctions` (spec §4.3) — bypasses code generation, performs no install
and no file writes, and rewrites each eligible function in place. -/
def wrapFunctionsUseLayers (service : Service) (functionNames : Option (List Str)) :
    List Effect × Service :=
  let (runtime, functions, logs) := getFunctionsToWrapSpec service functionNames
  if runtime = str "unsupported" then (logs, service)
  else
    let names := functions.map Prod.fst
    let entryPoint := layerEntryPoint runtime
    let arn := layerRef service.region runtime (layerVersionOf service runtime)
    let kv := service.functionsKV.map fun p =>
      if decide (p.1 ∈ names) then (p.1, wrapFunctionUseLayers entryPoint arn p.2) else p
    (logs, { service with functionsKV := kv })

/-! ## Concrete fixtures (mirroring the repository test suite) -/

/-- A nodejs service with one declared function, as in the test suite. -/
def svcFixtureNode : Service :=
  { functionsKV := [(str "hello", { handler := str "hello.world" })],
    providerRuntime := str "nodejs8.10",
    region := str "us-east-1",
    token := some (str "test-token") }

/-- A python3 service with one declared function, as in the test suite. -/
def svcFixturePython : Service :=
  { functionsKV := [(str "pack", { handler := str "foo.bar/zoo.handler" })],
    providerRuntime := str "python3.7",
    token := some (str "test-token") }

/-- The nodejs fixture extended with an opted-out function (`skippy`). -/
def svcFixtureSkip : Service :=
  { svcFixtureNode with functionsKV := svcFixtureNode.functionsKV ++
      [(str "skippy", { handler := str "will.skip", lumigoEnabled := some false })] }

/-- An environment without a pre-installed tracer. -/
def envFixture : Env := { servicePath := str "/sp" }

/-- An environment with a requirements file declaring the python tracer. -/
def envFixturePython : Env :=
  { servicePath := str "/sp", files := [(str "requirements.txt", str "lumigo_tracer")] }

/-! ## Lemmas about the string primitives -/

theorem jsLastIndexOf_neg_of_not_mem {s : Str} {c : Char} (h : c ∉ s) :
    jsLastIndexOf s c = -1 := by
  induction s with
  | nil => rfl
  | cons a rest ih =>
    simp only [List.mem_cons, not_or] at h
    simp [jsLastIndexOf, ih h.2, Ne.symm h.1]

theorem jsLastIndexOf_append_last {p q : Str} {c : Char} (h : c ∉ q) :
    jsLastIndexOf (p ++ c :: q) c = (p.length : Int) := by
  induction p with
  | nil => simp [jsLastIndexOf, jsLastIndexOf_neg_of_not_mem h]
  | cons a rest ih =>
    have hnn : (0 : Int) ≤ (rest.length : Int) := by positivity
    simp [jsLastIndexOf, ih, hnn]

theorem jsSubstrTo_append_length (p q : Str) :
    jsSubstrTo (p ++ q) (p.length : Int) = p := by
  unfold jsSubstrTo
  rcases Nat.eq_zero_or_pos p.length with h | h
  · simp_all [List.eq_nil_of_length_eq_zero h]
  · have hne : ¬ ((p.length : Int) ≤ 0) := by omega
    simp only [hne, if_false, Int.toNat_natCast, List.take_left]

theorem jsSubstrFrom_append_last (p q : Str) (c : Char) :
    jsSubstrFrom (p ++ c :: q) ((p.length : Int) + 1) = q := by
  unfold jsSubstrFrom
  have h1 : ((p.length : Int) + 1).toNat = (p ++ [c]).length := by
    simp
  have h2 : p ++ c :: q = (p ++ [c]) ++ q := by simp
  rw [h1, h2, List.drop_left]

theorem pathBasename_split (s : Str) :
    ∃ r, s = r ++ pathBasename s := by
  refine ⟨(s.reverse.dropWhile (fun c => c ≠ '/')).reverse, ?_⟩
  unfold pathBasename
  rw [← List.reverse_append, List.takeWhile_append_dropWhile, List.reverse_reverse]

theorem pathBasename_no_slash (s : Str) : '/' ∉ pathBasename s := by
  intro h
  unfold pathBasename at h
  rw [List.mem_reverse] at h
  have := List.mem_takeWhile_imp h
  simp at this

theorem mem_of_mem_pathBasename {s : Str} {c : Char} (h : c ∈ pathBasename s) :
    c ∈ s := by
  obtain ⟨r, hr⟩ := pathBasename_split s
  rw [hr]
  exact List.mem_append_right r h

/-- Any list containing `c` splits around the last occurrence of `c`. -/
theorem exists_split_last {s : Str} {c : Char} (h : c ∈ s) :
    ∃ p q, s = p ++ c :: q ∧ c ∉ q := by
  induction s with
  | nil => cases h
  | cons a rest ih =>
    by_cases hm : c ∈ rest
    · obtain ⟨p, q, hpq, hq⟩ := ih hm
      exact ⟨a :: p, q, by simp [hpq], hq⟩
    · have : a = c := by
        rcases List.mem_cons.mp h with h | h
        · exact h.symm
        · exact absurd h hm
      exact ⟨[], rest, by simp [this], hm⟩

theorem isPrefixOf_eq_true (a : Str) : ∀ b : Str, a.isPrefixOf b = true ↔ a <+: b := by
  induction a with
  | nil =>
    intro b
    simp [List.isPrefixOf]
  | cons x xs ih =>
    intro b
    cases b with
    | nil => simp [List.isPrefixOf]
    | cons y ys =>
      constructor
      · intro h
        simp only [List.isPrefixOf, Bool.and_eq_true, beq_iff_eq] at h
        obtain ⟨t, ht⟩ := (ih ys).mp h.2
        exact ⟨t, by rw [h.1, List.cons_append, ht]⟩
      · rintro ⟨t, ht⟩
        simp only [List.cons_append] at ht
        injection ht with h1 h2
        simp only [List.isPrefixOf, Bool.and_eq_true, beq_iff_eq]
        exact ⟨h1, (ih ys).mpr ⟨t, h2⟩⟩

theorem hasSub_iff (needle hay : Str) :
    hasSub needle hay = true ↔ ∃ a b, hay = a ++ needle ++ b := by
  constructor
  · intro h
    unfold hasSub at h
    obtain ⟨i, _, hpre⟩ := List.any_eq_true.mp h
    obtain ⟨b, hb⟩ := ((isPrefixOf_eq_true needle _).mp hpre)
    refine ⟨hay.take i, b, ?_⟩
    rw [List.append_assoc, hb, List.take_append_drop]
  · rintro ⟨a, b, rfl⟩
    unfold hasSub
    refine List.any_eq_true.mpr ⟨a.length, ?_, ?_⟩
    · simp [List.mem_range]
      omega
    · rw [List.append_assoc, List.drop_left]
      exact (isPrefixOf_eq_true needle _).mpr ⟨b, rfl⟩

theorem mem_of_sub {needle hay : Str} {c : Char}
    (h : ∃ a b, hay = a ++ needle ++ b) (hc : c ∈ needle) : c ∈ hay := by
  obtain ⟨a, b, rfl⟩ := h
  simp [hc]

/-- Two decompositions of the same string at a final dot coincide. -/
theorem split_last_unique {h p₁ q₁ p₂ q₂ : Str}
    (e₁ : h = p₁ ++ '.' :: q₁) (n₁ : '.' ∉ q₁)
    (e₂ : h = p₂ ++ '.' :: q₂) (n₂ : '.' ∉ q₂) : p₁ = p₂ ∧ q₁ = q₂ := by
  have l₁ : jsLastIndexOf h '.' = (p₁.length : Int) := e₁ ▸ jsLastIndexOf_append_last n₁
  have l₂ : jsLastIndexOf h '.' = (p₂.length : Int) := e₂ ▸ jsLastIndexOf_append_last n₂
  have hlen : p₁.length = p₂.length := by
    have := l₁.symm.trans l₂
    exact_mod_cast this
  have := e₁.symm.trans e₂
  obtain ⟨hp, hq⟩ := List.append_inj this hlen
  exact ⟨hp, by injection hq⟩

/-- The parser recovers the decomposition of a handler reference at the final
dot, whenever the final path component contains a dot at all. -/
theorem parser_reconstructs (h : Str) (hd : '.' ∈ pathBasename h) :
    h = parsedModulePath h ++ '.' :: parsedFuncName h ∧ '.' ∉ parsedFuncName h := by
  obtain ⟨r, hr⟩ := pathBasename_split h
  obtain ⟨p, q, hbq, hq⟩ := exists_split_last hd
  have hh : h = (r ++ p) ++ '.' :: q := by
    rw [hr, hbq, List.append_assoc]
  have hmp : parsedModulePath h = r ++ p := by
    unfold parsedModulePath
    rw [hh, jsLastIndexOf_append_last hq, jsSubstrTo_append_length]
  have hfn : parsedFuncName h = q := by
    unfold parsedFuncName
    rw [hbq, jsLastIndexOf_append_last hq, jsSubstrFrom_append_last]
  rw [hmp, hfn]
  exact ⟨hh, hq⟩

/-! ## Shared lemmas about the generated paths and handlers -/

theorem append_tail_congr {α : Type} {K L : List α} (u : List α) (h : K = L) :
    K ++ u = L ++ u := by rw [h]

theorem not_prefix_of_head_ne {a b : Char} (hne : a ≠ b) (l X : List Char) :
    ¬ ((a :: l) <+: (b :: X)) := by
  rintro ⟨t, ht⟩
  simp only [List.cons_append] at ht
  exact hne (List.cons.injEq .. ▸ ht).1

theorem folderPath_ne_dot (sp : Str) : folderPath sp ≠ str "." := by
  unfold folderPath pathJoin
  by_cases h : sp = str "."
  · simp [h]
    decide
  · simp [h]
    intro hc
    have := congrArg List.length hc
    simp [str] at this

theorem pathRelative_folder (sp fn : Str) :
    pathRelative sp (pathJoin (folderPath sp) fn) = str "_lumigo/" ++ fn := by
  have hjoin : pathJoin (folderPath sp) fn = folderPath sp ++ '/' :: fn := by
    unfold pathJoin
    rw [if_neg (folderPath_ne_dot sp)]
  rw [hjoin]
  by_cases h : sp = str "."
  · subst h
    have h1 : folderPath (str ".") = str "_lumigo" := by decide
    rw [h1]
    unfold pathRelative
    have h3 : str "." ++ ['/'] = '.' :: ['/'] := by decide
    have h4 : str "_lumigo" ++ '/' :: fn = '_' :: (str "lumigo" ++ '/' :: fn) := by
      rw [show str "_lumigo" = '_' :: str "lumigo" by decide]
      rfl
    rw [h3, h4, if_neg (not_prefix_of_head_ne (by decide) _ _)]
    rw [show str "_lumigo/" = '_' :: str "lumigo/" by decide]
    have h5 : str "lumigo/" = str "lumigo" ++ ['/'] := by decide
    rw [h5]
    simp
  · have h2 : folderPath sp = sp ++ '/' :: str "_lumigo" := by
      unfold folderPath pathJoin
      rw [if_neg h]
    rw [h2]
    unfold pathRelative
    have h6 : (sp ++ '/' :: str "_lumigo") ++ '/' :: fn =
        (sp ++ ['/']) ++ (str "_lumigo" ++ '/' :: fn) := by simp
    rw [h6, if_pos ⟨str "_lumigo" ++ '/' :: fn, rfl⟩]
    have h8 : sp.length + 1 = (sp ++ ['/']).length := by simp
    rw [h8, List.drop_left]
    rw [show str "_lumigo/" = str "_lumigo" ++ ['/'] by decide]
    simp

theorem jsSubstrTo_last_dot {p q : Str} (hq : '.' ∉ q) :
    jsSubstrTo (p ++ '.' :: q) (jsLastIndexOf (p ++ '.' :: q) '.' + 1) = p ++ ['.'] := by
  rw [jsLastIndexOf_append_last hq]
  have h1 : (p.length : Int) + 1 = (((p ++ ['.']).length : Nat) : Int) := by simp
  rw [h1, show p ++ '.' :: q = (p ++ ['.']) ++ q by simp, jsSubstrTo_append_length]

/-- The new handler reference returned by `createWrappedNodejsFunction`:
`_lumigo/<localName>.<funcName>`. -/
theorem createNode_newHandler (sp ln : Str) (func : FunctionDecl) (token : Str)
    (eh : Option Str) :
    (createWrappedNodejsFunction sp ln func token eh).1 =
      str "_lumigo/" ++ ln ++ ['.'] ++ parsedFuncName func.handler := by
  show jsSubstrTo (pathRelative sp (pathJoin (folderPath sp) (ln ++ str ".js")))
      (jsLastIndexOf (pathRelative sp (pathJoin (folderPath sp) (ln ++ str ".js"))) '.' + 1) ++
      parsedFuncName func.handler = _
  rw [pathRelative_folder]
  have hsh : str "_lumigo/" ++ (ln ++ str ".js") = (str "_lumigo/" ++ ln) ++ '.' :: str "js" := by
    rw [show str ".js" = '.' :: str "js" by decide]
    simp
  rw [hsh, jsSubstrTo_last_dot (by decide)]

/-- The new handler reference returned by `createWrappedPythonFunction`:
`_lumigo/<localName>.<funcName>`. -/
theorem createPython_newHandler (sp ln : Str) (func : FunctionDecl) (token : Str) :
    (createWrappedPythonFunction sp ln func token).1 =
      str "_lumigo/" ++ ln ++ ['.'] ++ parsedFuncName func.handler := by
  show jsSubstrTo (pathRelative sp (pathJoin (folderPath sp) (ln ++ str ".py")))
      (jsLastIndexOf (pathRelative sp (pathJoin (folderPath sp) (ln ++ str ".py"))) '.' + 1) ++
      parsedFuncName func.handler = _
  rw [pathRelative_folder]
  have hsh : str "_lumigo/" ++ (ln ++ str ".py") = (str "_lumigo/" ++ ln) ++ '.' :: str "py" := by
    rw [show str ".py" = '.' :: str "py" by decide]
    simp
  rw [hsh, jsSubstrTo_last_dot (by decide)]

/-! ## Claim C1 -/

/-- Claim C1, counterexample: the handler string `a.b/c` contains a dot, yet
the parser's funcName is `c` — not `b/c`, the substring after the final dot —
and `modulePath ++ "." ++ funcName` rebuilds `a.c`, not the original string.
The claim's universally quantified parsing property therefore fails when the
final dot precedes the final path separator. -/
theorem C1_counterexample :
    ('.' ∈ str "a.b/c") ∧
    parsedFuncName (str "a.b/c") ≠
      jsSubstrFrom (str "a.b/c") (jsLastIndexOf (str "a.b/c") '.' + 1) ∧
    parsedModulePath (str "a.b/c") ++ '.' :: parsedFuncName (str "a.b/c") ≠ str "a.b/c" := by
  decide

/-- Claim C1 (amended): for every raw handler string whose final path
component — the part after the last `/` — contains at least one dot, the
parser produces funcName equal to exactly the substring after the final `.`
and modulePath equal to exactly the prefix before that final `.` (stated as:
the reconstruction `modulePath ++ "." ++ funcName` is the original handler
string, funcName contains no further dot, and any such final-dot
decomposition coincides with the parser's); the parser is total, so a
handler string without such a dot is at worst a malformed-reference error
condition, never an exception. -/
theorem C1_theorem (h : Str) (hd : '.' ∈ pathBasename h) :
    h = parsedModulePath h ++ '.' :: parsedFuncName h ∧
    '.' ∉ parsedFuncName h ∧
    ∀ p q, h = p ++ '.' :: q → '.' ∉ q →
      p = parsedModulePath h ∧ q = parsedFuncName h := by
  obtain ⟨hrec, hnd⟩ := parser_reconstructs h hd
  refine ⟨hrec, hnd, ?_⟩
  intro p q hpq hq
  exact split_last_unique hpq hq hrec hnd

/-- Claim C1, witness: the amended theorem applied to the handler string
`functions/hello.world.handler` of the source comments. -/
theorem C1_witness :
    ('.' ∈ pathBasename (str "functions/hello.world.handler")) ∧
    (str "functions/hello.world.handler" =
        parsedModulePath (str "functions/hello.world.handler") ++
          '.' :: parsedFuncName (str "functions/hello.world.handler") ∧
      '.' ∉ parsedFuncName (str "functions/hello.world.handler") ∧
      ∀ p q, str "functions/hello.world.handler" = p ++ '.' :: q → '.' ∉ q →
        p = parsedModulePath (str "functions/hello.world.handler") ∧
        q = parsedFuncName (str "functions/hello.world.handler")) :=
  ⟨by decide, C1_theorem (str "functions/hello.world.handler") (by decide)⟩

/-! ## Claim C5 -/

/-- Claim C5: for a function with handler reference `foo.bar/zoo.handler`
under the python runtime family, the module path resolves to `foo.bar.zoo`
(every path separator replaced with a dot), the generated wrapper contains
the import line `from foo.bar.zoo import handler as userHandler`, the
artifact is written to `_lumigo/<localName>.py` under the generated-artifacts
folder, and the handler reference the wrap pass installs for the function is
`_lumigo/<localName>.handler`. -/
theorem C5_theorem (sp ln token : Str) (func : FunctionDecl)
    (hh : func.handler = str "foo.bar/zoo.handler") :
    pyModulePath func.handler = str "foo.bar.zoo" ∧
    (∃ a b, pythonWrapperContent func.handler token =
        a ++ str "from foo.bar.zoo import handler as userHandler" ++ b) ∧
    (createWrappedPythonFunction sp ln func token).2 =
      [Effect.outputFile (pathJoin (folderPath sp) (ln ++ str ".py"))
        (pythonWrapperContent func.handler token)] ∧
    pathRelative sp (pathJoin (folderPath sp) (ln ++ str ".py")) =
      str "_lumigo/" ++ ln ++ str ".py" ∧
    (createWrappedPythonFunction sp ln func token).1 =
      str "_lumigo/" ++ ln ++ str ".handler" := by
  obtain ⟨fh, fl, fla, fen, fex⟩ := func
  dsimp only at hh
  subst hh
  refine ⟨show pyModulePath (str "foo.bar/zoo.handler") = str "foo.bar.zoo" by decide,
    ?_, rfl, ?_, ?_⟩
  · refine ⟨str "\nfrom lumigo_tracer import lumigo_tracer\n",
      str "\n\n@lumigo_tracer(token=\x27" ++ token ++
        str "\x27)\ndef handler(event, context):\n  return userHandler(event, context)\n    ", ?_⟩
    unfold pythonWrapperContent
    rw [show pyModulePath (str "foo.bar/zoo.handler") = str "foo.bar.zoo" by decide,
        show parsedFuncName (str "foo.bar/zoo.handler") = str "handler" by decide]
    have hK : str "\nfrom lumigo_tracer import lumigo_tracer\nfrom " ++
        (str "foo.bar.zoo" ++ (str " import " ++ (str "handler" ++
          str " as userHandler\n\n@lumigo_tracer(token=\x27"))) =
        str "\nfrom lumigo_tracer import lumigo_tracer\n" ++
        (str "from foo.bar.zoo import handler as userHandler" ++
          str "\n\n@lumigo_tracer(token=\x27") := by decide
    have hT : str "\x27)\ndef " ++ (str "handler" ++
        str "(event, context):\n  return userHandler(event, context)\n    ") =
        str "\x27)\ndef handler(event, context):\n  return userHandler(event, context)\n    " := by
      decide
    calc str "\nfrom lumigo_tracer import lumigo_tracer\nfrom " ++
          str "foo.bar.zoo" ++ str " import " ++ str "handler" ++
          str " as userHandler\n\n@lumigo_tracer(token=\x27" ++ token ++
          str "\x27)\ndef " ++ str "handler" ++
          str "(event, context):\n  return userHandler(event, context)\n    "
        = (str "\nfrom lumigo_tracer import lumigo_tracer\nfrom " ++
            (str "foo.bar.zoo" ++ (str " import " ++ (str "handler" ++
              str " as userHandler\n\n@lumigo_tracer(token=\x27")))) ++
          (token ++ (str "\x27)\ndef " ++ (str "handler" ++
            str "(event, context):\n  return userHandler(event, context)\n    "))) := by
          simp [List.append_assoc]
      _ = (str "\nfrom lumigo_tracer import lumigo_tracer\n" ++
            (str "from foo.bar.zoo import handler as userHandler" ++
              str "\n\n@lumigo_tracer(token=\x27")) ++
          (token ++
            str "\x27)\ndef handler(event, context):\n  return userHandler(event, context)\n    ") := by
          rw [hK, hT]
      _ = str "\nfrom lumigo_tracer import lumigo_tracer\n" ++
          str "from foo.bar.zoo import handler as userHandler" ++
          (str "\n\n@lumigo_tracer(token=\x27" ++ token ++
            str "\x27)\ndef handler(event, context):\n  return userHandler(event, context)\n    ") := by
          simp [List.append_assoc]
  · exact pathRelative_folder sp (ln ++ str ".py")
  · rw [createPython_newHandler,
        show parsedFuncName (str "foo.bar/zoo.handler") = str "handler" by decide,
        show str ".handler" = '.' :: str "handler" by decide]
    simp

/-- Claim C5, witness: the theorem applied to the `pack` function of the test
suite (`servicePath` `/sp`, local name `pack`, token `t`). -/
theorem C5_witness :
    ({ handler := str "foo.bar/zoo.handler" } : FunctionDecl).handler =
        str "foo.bar/zoo.handler" ∧
    (pyModulePath ({ handler := str "foo.bar/zoo.handler" } : FunctionDecl).handler =
        str "foo.bar.zoo" ∧
      (∃ a b, pythonWrapperContent
          ({ handler := str "foo.bar/zoo.handler" } : FunctionDecl).handler (str "t") =
          a ++ str "from foo.bar.zoo import handler as userHandler" ++ b) ∧
      (createWrappedPythonFunction (str "/sp") (str "pack")
          ({ handler := str "foo.bar/zoo.handler" } : FunctionDecl) (str "t")).2 =
        [Effect.outputFile (pathJoin (folderPath (str "/sp")) (str "pack" ++ str ".py"))
          (pythonWrapperContent
            ({ handler := str "foo.bar/zoo.handler" } : FunctionDecl).handler (str "t"))] ∧
      pathRelative (str "/sp") (pathJoin (folderPath (str "/sp")) (str "pack" ++ str ".py")) =
        str "_lumigo/" ++ str "pack" ++ str ".py" ∧
      (createWrappedPythonFunction (str "/sp") (str "pack")
          ({ handler := str "foo.bar/zoo.handler" } : FunctionDecl) (str "t")).1 =
        str "_lumigo/" ++ str "pack" ++ str ".handler") :=
  ⟨rfl, C5_theorem (str "/sp") (str "pack") (str "t") { handler := str "foo.bar/zoo.handler" } rfl⟩

/-! ## Claim C6 -/

theorem mem_of_mem_jsSubstrTo {s : Str} {n : Int} {c : Char}
    (h : c ∈ jsSubstrTo s n) : c ∈ s := by
  unfold jsSubstrTo at h
  split at h
  · cases h
  · exact List.take_subset _ _ h

theorem mem_of_mem_jsSubstrFrom {s : Str} {n : Int} {c : Char}
    (h : c ∈ jsSubstrFrom s n) : c ∈ s := by
  unfold jsSubstrFrom at h
  exact List.drop_subset _ _ h

theorem mem_of_mem_parsedModulePath {s : Str} {c : Char}
    (h : c ∈ parsedModulePath s) : c ∈ s :=
  mem_of_mem_jsSubstrTo h

theorem mem_of_mem_parsedFuncName {s : Str} {c : Char}
    (h : c ∈ parsedFuncName s) : c ∈ s :=
  mem_of_mem_pathBasename (mem_of_mem_jsSubstrFrom h)

/-- The parsed module path is a prefix of the handler reference. -/
theorem parsedModulePath_front (s : Str) : parsedModulePath s <+: s := by
  unfold parsedModulePath jsSubstrTo
  split
  · exact List.nil_prefix
  · exact List.take_prefix _ _

/-- The parsed function name is a suffix of the handler reference. -/
theorem parsedFuncName_suffix (s : Str) : parsedFuncName s <:+ s := by
  unfold parsedFuncName jsSubstrFrom
  have h1 : (pathBasename s).drop (jsLastIndexOf (pathBasename s) '.' + 1).toNat <:+
      pathBasename s := List.drop_suffix _ _
  have h2 : pathBasename s <:+ s := by
    obtain ⟨r, hr⟩ := pathBasename_split s
    exact ⟨r, hr.symm⟩
  exact h1.trans h2

/-- An occurrence of `n` in `x ++ y` lies inside `x`, inside `y`, or
straddles the boundary: `n` splits into a nonempty suffix of `x` followed
by a nonempty prefix of `y`. -/
theorem sub_append_cases {n x y : Str} (h : ∃ a b, x ++ y = a ++ n ++ b) :
    (∃ a b, x = a ++ n ++ b) ∨ (∃ a b, y = a ++ n ++ b) ∨
    (∃ n₁ n₂, n = n₁ ++ n₂ ∧ n₁ ≠ [] ∧ n₂ ≠ [] ∧
      (∃ a, x = a ++ n₁) ∧ (∃ b, y = n₂ ++ b)) := by
  obtain ⟨a, b, hab⟩ := h
  rw [List.append_assoc] at hab
  rcases List.append_eq_append_iff.mp hab with ⟨a2, ha2, hy⟩ | ⟨c2, hx, hd⟩
  · right; left
    exact ⟨a2, b, by rw [hy, List.append_assoc]⟩
  · rcases List.append_eq_append_iff.mp hd with ⟨a3, hc2, hb⟩ | ⟨c3, hn, hy2⟩
    · left
      exact ⟨a, a3, by rw [hx, hc2, List.append_assoc]⟩
    · by_cases hc2nil : c2 = []
      · right; left
        subst hc2nil
        simp only [List.nil_append] at hn
        exact ⟨[], b, by rw [hy2, ← hn]; simp⟩
      · by_cases hc3nil : c3 = []
        · left
          subst hc3nil
          rw [List.append_nil] at hn
          exact ⟨a, [], by rw [hx, hn]; simp⟩
        · right; right
          exact ⟨c2, c3, hn, hc2nil, hc3nil, ⟨a, hx⟩, ⟨b, hy2⟩⟩

/-- No occurrence of `n` in `x ++ c :: ys` when none is in either part and the
boundary character `c` does not occur in `n` (so no occurrence straddles). -/
theorem notSub_append_cons (n x ys : Str) (c : Char)
    (hx : ¬ ∃ a b, x = a ++ n ++ b)
    (hy : ¬ ∃ a b, c :: ys = a ++ n ++ b)
    (hc : c ∉ n) :
    ¬ ∃ a b, x ++ c :: ys = a ++ n ++ b := by
  intro h
  rcases sub_append_cases h with h | h | ⟨n₁, n₂, hn, hn₁, hn₂, ⟨a, ha⟩, ⟨b, hb⟩⟩
  · exact hx h
  · exact hy h
  · cases n₂ with
    | nil => exact hn₂ rfl
    | cons d ds =>
      rw [List.cons_append] at hb
      injection hb with h1 _
      apply hc
      rw [hn, h1]
      simp

/-- No occurrence of `n` in `(xs ++ [c]) ++ y` when none is in either part and
the boundary character `c` does not occur in `n`. -/
theorem notSub_snoc_append (n xs y : Str) (c : Char)
    (hx : ¬ ∃ a b, xs ++ [c] = a ++ n ++ b)
    (hy : ¬ ∃ a b, y = a ++ n ++ b)
    (hc : c ∉ n) :
    ¬ ∃ a b, (xs ++ [c]) ++ y = a ++ n ++ b := by
  intro h
  rcases sub_append_cases h with h | h | ⟨n₁, n₂, hn, hn₁, hn₂, ⟨a, ha⟩, ⟨b, hb⟩⟩
  · exact hx h
  · exact hy h
  · rcases List.eq_nil_or_concat n₁ with rfl | ⟨n₁x, d, rfl⟩
    · exact hn₁ rfl
    · rw [List.concat_eq_append] at ha hn
      have h2 : xs ++ [c] = (a ++ n₁x) ++ [d] := by rw [ha, List.append_assoc]
      have h3 := (List.append_inj' h2 rfl).2
      injection h3 with h4 _
      apply hc
      rw [hn, h4]
      simp

/-- An occurrence inside a prefix is an occurrence in the whole. -/
theorem sub_of_sub_front {n u v : Str}
    (hs : ∃ a b, u = a ++ n ++ b) (hp : u <+: v) : ∃ a b, v = a ++ n ++ b := by
  obtain ⟨a, b, rfl⟩ := hs
  obtain ⟨w, rfl⟩ := hp
  exact ⟨a, b ++ w, by simp⟩

/-- An occurrence inside a suffix is an occurrence in the whole. -/
theorem sub_of_sub_suffix {n u v : Str}
    (hs : ∃ a b, u = a ++ n ++ b) (hp : u <:+ v) : ∃ a b, v = a ++ n ++ b := by
  obtain ⟨a, b, rfl⟩ := hs
  obtain ⟨w, rfl⟩ := hp
  exact ⟨w ++ a, b, by simp⟩

/-- Bridge from the executable substring test to the occurrence predicate. -/
theorem noSub_of_decide (n L : Str) (h : hasSub n L = false) :
    ¬ ∃ a b, L = a ++ n ++ b := by
  intro hex
  rw [← hasSub_iff] at hex
  rw [h] at hex
  cases hex

/-- Claim C6, counterexample: the generated nodejs wrapper renders the token
as `token: '<token>'` — with a space after the colon — so the spaceless
rendering `token:'<token>'` the claim asserts does not occur (here for the
`hello` fixture of the test suite: token `test-token`, handler
`hello.world`, no edgeHost). -/
theorem C6_counterexample :
    hasSub (str "token: \x27test-token\x27")
      (nodeWrapperContent (str "hello.world") (str "test-token") none) = true ∧
    ¬ ∃ a b, nodeWrapperContent (str "hello.world") (str "test-token") none =
      a ++ str "token:\x27test-token\x27" ++ b := by
  constructor
  · decide
  · rw [← hasSub_iff]
    decide

/-- Claim C6 (amended): for every configuration, the generated nodejs wrapper
source text contains the configured token rendered as `token: '<token>'`
(colon followed by a space, as the generator writes it); when a non-empty
edgeHost is configured the text contains `edgeHost: '<edgeHost>'`; and when
edgeHost is not configured no edgeHost fragment appears at all — no occurrence
of the string `edgeHost` — provided the token and handler do not themselves
contain such a fragment (which none of the generator's own text does).
The generated text is exactly what `createWrappedNodejsFunction` writes to
the function's wrapper artifact. -/
theorem C6_theorem (func : FunctionDecl) (sp ln token : Str) (edgeHost : Option Str) :
    (∃ a b, nodeWrapperContent func.handler token edgeHost =
        a ++ (str "token: \x27" ++ token ++ str "\x27") ++ b) ∧
    (∀ e, edgeHost = some e → e ≠ [] →
      ∃ a b, nodeWrapperContent func.handler token edgeHost =
        a ++ (str "edgeHost: \x27" ++ e ++ str "\x27") ++ b) ∧
    (edgeHost = none →
      (¬ ∃ a b, token = a ++ str "edgeHost" ++ b) →
      (¬ ∃ a b, func.handler = a ++ str "edgeHost" ++ b) →
      ¬ ∃ a b, nodeWrapperContent func.handler token edgeHost =
        a ++ str "edgeHost" ++ b) ∧
    (createWrappedNodejsFunction sp ln func token edgeHost).2 =
      [Effect.outputFile (pathJoin (folderPath sp) (ln ++ str ".js"))
        (nodeWrapperContent func.handler token edgeHost)] := by
  refine ⟨?_, ?_, ?_, rfl⟩
  · match edgeHost with
    | none =>
      refine ⟨str "\nconst tracer = require(\"@lumigo/tracer\")(\x7b\n\t",
          str "\n\x7d);\nconst handler = require(\x27../" ++ parsedModulePath func.handler ++
              str "\x27)." ++ parsedFuncName func.handler ++ str ";\n\nmodule.exports." ++
                parsedFuncName func.handler ++ str " = tracer.trace(handler);\n    ", ?_⟩
      simp [nodeWrapperContent, getNodeTracerParameters, joinComma, List.append_assoc]
    | some e =>
      by_cases he : e = []
      · refine ⟨str "\nconst tracer = require(\"@lumigo/tracer\")(\x7b\n\t",
            str "\n\x7d);\nconst handler = require(\x27../" ++ parsedModulePath func.handler ++
              str "\x27)." ++ parsedFuncName func.handler ++ str ";\n\nmodule.exports." ++
                parsedFuncName func.handler ++ str " = tracer.trace(handler);\n    ", ?_⟩
        simp [nodeWrapperContent, getNodeTracerParameters, joinComma, he, List.append_assoc]
      · refine ⟨str "\nconst tracer = require(\"@lumigo/tracer\")(\x7b\n\t",
          ',' :: (str "edgeHost: \x27" ++ e ++ str "\x27") ++
            (str "\n\x7d);\nconst handler = require(\x27../" ++ parsedModulePath func.handler ++
              str "\x27)." ++ parsedFuncName func.handler ++ str ";\n\nmodule.exports." ++
                parsedFuncName func.handler ++ str " = tracer.trace(handler);\n    "), ?_⟩
        simp [nodeWrapperContent, getNodeTracerParameters, joinComma, he, List.append_assoc]
  · rintro e rfl he
    refine ⟨str "\nconst tracer = require(\"@lumigo/tracer\")(\x7b\n\t" ++
        (str "token: \x27" ++ token ++ str "\x27,"),
        str "\n\x7d);\nconst handler = require(\x27../" ++ parsedModulePath func.handler ++
              str "\x27)." ++ parsedFuncName func.handler ++ str ";\n\nmodule.exports." ++
                parsedFuncName func.handler ++ str " = tracer.trace(handler);\n    ", ?_⟩
    simp [nodeWrapperContent, getNodeTracerParameters, joinComma, he, List.append_assoc,
      show str "\x27," = '\x27' :: [','] by decide, show str "\x27" = ['\x27'] by decide]
  · rintro rfl htok hh hsub
    have hmp : ¬ ∃ a b, parsedModulePath func.handler = a ++ str "edgeHost" ++ b :=
      fun hs => hh (sub_of_sub_front hs (parsedModulePath_front func.handler))
    have hfn : ¬ ∃ a b, parsedFuncName func.handler = a ++ str "edgeHost" ++ b :=
      fun hs => hh (sub_of_sub_suffix hs (parsedFuncName_suffix func.handler))
    have h9 : ¬ ∃ a b, str " = tracer.trace(handler);\n    " =
        a ++ str "edgeHost" ++ b :=
      noSub_of_decide _ _ (by decide)
    have h8 : ¬ ∃ a b, parsedFuncName func.handler ++
        str " = tracer.trace(handler);\n    " = a ++ str "edgeHost" ++ b :=
      notSub_append_cons (str "edgeHost") (parsedFuncName func.handler)
        (str "= tracer.trace(handler);\n    ") ' ' hfn h9 (by decide)
    have h7 : ¬ ∃ a b, str ";\n\nmodule.exports." ++
        (parsedFuncName func.handler ++ str " = tracer.trace(handler);\n    ") =
        a ++ str "edgeHost" ++ b :=
      notSub_snoc_append (str "edgeHost") (str ";\n\nmodule.exports")
        (parsedFuncName func.handler ++ str " = tracer.trace(handler);\n    ") '.'
        (noSub_of_decide _ _ (by decide)) h8 (by decide)
    have h6 : ¬ ∃ a b, parsedFuncName func.handler ++ (str ";\n\nmodule.exports." ++
        (parsedFuncName func.handler ++ str " = tracer.trace(handler);\n    ")) =
        a ++ str "edgeHost" ++ b :=
      notSub_append_cons (str "edgeHost") (parsedFuncName func.handler)
        (str "\n\nmodule.exports." ++
          (parsedFuncName func.handler ++ str " = tracer.trace(handler);\n    ")) ';'
        hfn h7 (by decide)
    have h5 : ¬ ∃ a b, str "\x27)." ++ (parsedFuncName func.handler ++
        (str ";\n\nmodule.exports." ++
          (parsedFuncName func.handler ++ str " = tracer.trace(handler);\n    "))) =
        a ++ str "edgeHost" ++ b :=
      notSub_snoc_append (str "edgeHost") (str "\x27)")
        (parsedFuncName func.handler ++ (str ";\n\nmodule.exports." ++
          (parsedFuncName func.handler ++ str " = tracer.trace(handler);\n    "))) '.'
        (noSub_of_decide _ _ (by decide)) h6 (by decide)
    have h4 : ¬ ∃ a b, parsedModulePath func.handler ++ (str "\x27)." ++
        (parsedFuncName func.handler ++ (str ";\n\nmodule.exports." ++
          (parsedFuncName func.handler ++ str " = tracer.trace(handler);\n    ")))) =
        a ++ str "edgeHost" ++ b :=
      notSub_append_cons (str "edgeHost") (parsedModulePath func.handler)
        (str ")." ++ (parsedFuncName func.handler ++ (str ";\n\nmodule.exports." ++
          (parsedFuncName func.handler ++ str " = tracer.trace(handler);\n    ")))) '\x27'
        hmp h5 (by decide)
    have h3 : ¬ ∃ a b, str "\x27\n\x7d);\nconst handler = require(\x27../" ++
        (parsedModulePath func.handler ++ (str "\x27)." ++
        (parsedFuncName func.handler ++ (str ";\n\nmodule.exports." ++
          (parsedFuncName func.handler ++ str " = tracer.trace(handler);\n    "))))) =
        a ++ str "edgeHost" ++ b :=
      notSub_snoc_append (str "edgeHost")
        (str "\x27\n\x7d);\nconst handler = require(\x27..")
        (parsedModulePath func.handler ++ (str "\x27)." ++
        (parsedFuncName func.handler ++ (str ";\n\nmodule.exports." ++
          (parsedFuncName func.handler ++ str " = tracer.trace(handler);\n    "))))) '/'
        (noSub_of_decide _ _ (by decide)) h4 (by decide)
    have h2 : ¬ ∃ a b, token ++ (str "\x27\n\x7d);\nconst handler = require(\x27../" ++
        (parsedModulePath func.handler ++ (str "\x27)." ++
        (parsedFuncName func.handler ++ (str ";\n\nmodule.exports." ++
          (parsedFuncName func.handler ++ str " = tracer.trace(handler);\n    ")))))) =
        a ++ str "edgeHost" ++ b :=
      notSub_append_cons (str "edgeHost") token
        (str "\n\x7d);\nconst handler = require(\x27../" ++
        (parsedModulePath func.handler ++ (str "\x27)." ++
        (parsedFuncName func.handler ++ (str ";\n\nmodule.exports." ++
          (parsedFuncName func.handler ++ str " = tracer.trace(handler);\n    "))))))
        '\x27' htok h3 (by decide)
    have h1 : ¬ ∃ a b,
        str "\nconst tracer = require(\"@lumigo/tracer\")(\x7b\n\ttoken: \x27" ++
        (token ++ (str "\x27\n\x7d);\nconst handler = require(\x27../" ++
        (parsedModulePath func.handler ++ (str "\x27)." ++
        (parsedFuncName func.handler ++ (str ";\n\nmodule.exports." ++
          (parsedFuncName func.handler ++ str " = tracer.trace(handler);\n    "))))))) =
        a ++ str "edgeHost" ++ b :=
      notSub_snoc_append (str "edgeHost")
        (str "\nconst tracer = require(\"@lumigo/tracer\")(\x7b\n\ttoken: ")
        (token ++ (str "\x27\n\x7d);\nconst handler = require(\x27../" ++
        (parsedModulePath func.handler ++ (str "\x27)." ++
        (parsedFuncName func.handler ++ (str ";\n\nmodule.exports." ++
          (parsedFuncName func.handler ++ str " = tracer.trace(handler);\n    ")))))))
        '\x27' (noSub_of_decide _ _ (by decide)) h2 (by decide)
    have hcontent : nodeWrapperContent func.handler token none =
        str "\nconst tracer = require(\"@lumigo/tracer\")(\x7b\n\ttoken: \x27" ++
        (token ++ (str "\x27\n\x7d);\nconst handler = require(\x27../" ++
        (parsedModulePath func.handler ++ (str "\x27)." ++
        (parsedFuncName func.handler ++ (str ";\n\nmodule.exports." ++
          (parsedFuncName func.handler ++ str " = tracer.trace(handler);\n    "))))))) := by
      simp [nodeWrapperContent, getNodeTracerParameters, joinComma, List.append_assoc,
        show str "\nconst tracer = require(\"@lumigo/tracer\")(\x7b\n\ttoken: \x27" =
          str "\nconst tracer = require(\"@lumigo/tracer\")(\x7b\n\t" ++ str "token: \x27"
          by decide,
        show str "\x27\n\x7d);\nconst handler = require(\x27../" =
          str "\x27" ++ str "\n\x7d);\nconst handler = require(\x27../" by decide]
    rw [hcontent] at hsub
    exact h1 hsub

/-- Claim C6, witness: the amended theorem applied to the `hello` fixture of
the test suite (token `test-token`, handler `hello.world`, no edgeHost
configured), together with concrete checks that the fixture's token and
handler contain no edgeHost fragment, so the no-edgeHost conjunct applies
to this input non-vacuously; and a second application with edgeHost
`edge-host` configured, exercising the rendered-edgeHost conjunct. -/
theorem C6_witness :
    (¬ ∃ a b, str "test-token" = a ++ str "edgeHost" ++ b) ∧
    (¬ ∃ a b, ({ handler := str "hello.world" } : FunctionDecl).handler =
      a ++ str "edgeHost" ++ b) ∧
    ((∃ a b, nodeWrapperContent ({ handler := str "hello.world" } : FunctionDecl).handler
        (str "test-token") none =
        a ++ (str "token: \x27" ++ str "test-token" ++ str "\x27") ++ b) ∧
    (∀ e, (none : Option Str) = some e → e ≠ [] →
      ∃ a b, nodeWrapperContent ({ handler := str "hello.world" } : FunctionDecl).handler
        (str "test-token") none =
        a ++ (str "edgeHost: \x27" ++ e ++ str "\x27") ++ b) ∧
    ((none : Option Str) = none →
      (¬ ∃ a b, str "test-token" = a ++ str "edgeHost" ++ b) →
      (¬ ∃ a b, ({ handler := str "hello.world" } : FunctionDecl).handler =
        a ++ str "edgeHost" ++ b) →
      ¬ ∃ a b, nodeWrapperContent ({ handler := str "hello.world" } : FunctionDecl).handler
        (str "test-token") none = a ++ str "edgeHost" ++ b) ∧
    (createWrappedNodejsFunction (str "/sp") (str "hello")
        ({ handler := str "hello.world" } : FunctionDecl) (str "test-token")
        none).2 =
      [Effect.outputFile (pathJoin (folderPath (str "/sp")) (str "hello" ++ str ".js"))
        (nodeWrapperContent ({ handler := str "hello.world" } : FunctionDecl).handler
          (str "test-token") none)]) ∧
    (∀ e, (some (str "edge-host") : Option Str) = some e → e ≠ [] →
      ∃ a b, nodeWrapperContent ({ handler := str "hello.world" } : FunctionDecl).handler
        (str "test-token") (some (str "edge-host")) =
        a ++ (str "edgeHost: \x27" ++ e ++ str "\x27") ++ b) :=
  ⟨noSub_of_decide _ _ (by decide), noSub_of_decide _ _ (by decide),
    C6_theorem { handler := str "hello.world" } (str "/sp") (str "hello")
      (str "test-token") none,
    (C6_theorem { handler := str "hello.world" } (str "/sp") (str "hello")
      (str "test-token") (some (str "edge-host"))).2.1⟩

/-! ## Branch lemmas for the orchestrator -/

theorem getFnsWith_nodejs {keep : List Str → Str × FunctionDecl → Bool}
    {service : Service} {names : Option (List Str)}
    (h : strStarts (str "nodejs") service.providerRuntime = true) :
    getFunctionsToWrapWith keep service names =
      (str "nodejs",
       service.functionsKV.filter (keep (names.getD (service.functionsKV.map Prod.fst))),
       []) := by
  simp [getFunctionsToWrapWith, h]

theorem getFnsWith_python {keep : List Str → Str × FunctionDecl → Bool}
    {service : Service} {names : Option (List Str)}
    (h1 : strStarts (str "nodejs") service.providerRuntime = false)
    (h2 : strStarts (str "python3") service.providerRuntime = true) :
    getFunctionsToWrapWith keep service names =
      (str "python",
       service.functionsKV.filter (keep (names.getD (service.functionsKV.map Prod.fst))),
       []) := by
  simp [getFunctionsToWrapWith, h1, h2]

theorem getFnsWith_unsupported {keep : List Str → Str × FunctionDecl → Bool}
    {service : Service} {names : Option (List Str)}
    (h1 : strStarts (str "nodejs") service.providerRuntime = false)
    (h2 : strStarts (str "python3") service.providerRuntime = false) :
    getFunctionsToWrapWith keep service names =
      (str "unsupported", [],
       [slsLog (str "unsupported runtime: [" ++ service.providerRuntime ++
         str "], skipped...")]) := by
  simp [getFunctionsToWrapWith, h1, h2]

/-- The log lines produced by the eligibility computation are log effects. -/
theorem getFnsWith_logs {keep : List Str → Str × FunctionDecl → Bool}
    (service : Service) (names : Option (List Str)) :
    ∀ e ∈ (getFunctionsToWrapWith keep service names).2.2, e.isLog = true := by
  intro e he
  unfold getFunctionsToWrapWith at he
  split at he
  · cases he
  · split at he
    · cases he
    · simp at he
      subst he
      rfl

/-- When the eligible set is empty, the wrap pass returns right after the
count log with no error and no further effect. -/
theorem wrapFunctionsWith_empty
    {getFns : Service → Option (List Str) → Str × List (Str × FunctionDecl) × List Effect}
    {env : Env} {service : Service} {names : Option (List Str)}
    (h : (getFns service names).2.1 = []) :
    wrapFunctionsWith getFns env service names =
      ((getFns service names).2.2 ++
        [slsLog (str "there are " ++ natStr 0 ++ str " function(s) to wrap...")],
       .ok service) := by
  unfold wrapFunctionsWith
  rcases hG : getFns service names with ⟨rt, fns, lg⟩
  rw [hG] at h
  simp only at h
  subst h
  simp

/-- When the eligible set is non-empty and no token is configured, the wrap
pass fails with the configuration error, before any install or write. -/
theorem wrapFunctionsWith_noToken
    {getFns : Service → Option (List Str) → Str × List (Str × FunctionDecl) × List Effect}
    {env : Env} {service : Service} {names : Option (List Str)}
    (h : (getFns service names).2.1 ≠ []) (ht : service.token = none) :
    wrapFunctionsWith getFns env service names =
      ((getFns service names).2.2 ++
        [slsLog (str "there are " ++ natStr (getFns service names).2.1.length ++
          str " function(s) to wrap...")],
       .error msgNoToken) := by
  unfold wrapFunctionsWith
  rcases hG : getFns service names with ⟨rt, fns, lg⟩
  rw [hG] at h
  simp only at h
  have hlen : ¬ (fns.length = 0) := by
    simp [List.length_eq_zero]
    exact h
  simp [hlen, ht]

/-! ## Claim C3 -/

/-- Claim C3: for every declared provider runtime that starts with neither
`nodejs` nor `python3`, `wrapFunctions` performs no file write and executes
no process command, regardless of any other configuration; the pass succeeds
(no error) and produces exactly two informational log lines — the
unsupported-runtime skip notice and the zero-functions count. -/
theorem C3_theorem (env : Env) (service : Service) (names : Option (List Str))
    (h1 : strStarts (str "nodejs") service.providerRuntime = false)
    (h2 : strStarts (str "python3") service.providerRuntime = false) :
    wrapFunctions env service names =
      ([slsLog (str "unsupported runtime: [" ++ service.providerRuntime ++
          str "], skipped..."),
        slsLog (str "there are " ++ natStr 0 ++ str " function(s) to wrap...")],
       .ok service) := by
  unfold wrapFunctions getFunctionsToWrap
  rw [wrapFunctionsWith_empty (by rw [getFnsWith_unsupported h1 h2]),
    getFnsWith_unsupported h1 h2]
  rfl

/-- Claim C3, witness: a `java8` runtime service. -/
theorem C3_witness :
    strStarts (str "nodejs") ({ svcFixtureNode with
        providerRuntime := str "java8" } : Service).providerRuntime = false ∧
    strStarts (str "python3") ({ svcFixtureNode with
        providerRuntime := str "java8" } : Service).providerRuntime = false ∧
    wrapFunctions envFixture { svcFixtureNode with providerRuntime := str "java8" } none =
      ([slsLog (str "unsupported runtime: [" ++
          ({ svcFixtureNode with providerRuntime := str "java8" } : Service).providerRuntime ++
          str "], skipped..."),
        slsLog (str "there are " ++ natStr 0 ++ str " function(s) to wrap...")],
       .ok { svcFixtureNode with providerRuntime := str "java8" }) :=
  ⟨by decide, by decide,
   C3_theorem envFixture { svcFixtureNode with providerRuntime := str "java8" } none
     (by decide) (by decide)⟩

/-! ## Claim C4 -/

/-- Claim C4, counterexample: with a non-empty eligible set and the token
configured as the empty string, the wrap pass does not fail — the code only
rejects an `undefined` token — so "absent or empty fails fatally" is false
for the empty-string half. -/
theorem C4_counterexample :
    ({ svcFixtureNode with token := some [] } : Service).token = some [] ∧
    (getFunctionsToWrap { svcFixtureNode with token := some [] } none).2.1 ≠ [] ∧
    (wrapFunctions { envFixture with nodeTracerInstalled := true }
        { svcFixtureNode with token := some [] } none).2 =
      .ok { svcFixtureNode with
        token := some [],
        functionsKV := [(str "hello", { handler := str "_lumigo/hello.world" })] } := by
  refine ⟨rfl, by decide, by decide⟩

/-- Claim C4 (amended): whenever the eligible function set is non-empty,
`wrapFunctions` requires the tracer token to be present: if the token is
absent (undefined) the pass fails fatally with the descriptive configuration
error, aborted before any install call or file write (every effect produced
is a log line); an empty-string token, however, is accepted. -/
theorem C4_theorem (env : Env) (service : Service) (names : Option (List Str))
    (h : (getFunctionsToWrap service names).2.1 ≠ []) (ht : service.token = none) :
    (wrapFunctions env service names).2 = .error msgNoToken ∧
    ∀ e ∈ (wrapFunctions env service names).1, e.isLog = true := by
  unfold wrapFunctions
  rw [wrapFunctionsWith_noToken h ht]
  refine ⟨rfl, ?_⟩
  intro e he
  simp at he
  rcases he with he | he
  · exact getFnsWith_logs service names e he
  · subst he
    rfl

/-- Claim C4, witness: the nodejs fixture with its token removed. -/
theorem C4_witness :
    (getFunctionsToWrap { svcFixtureNode with token := none } none).2.1 ≠ [] ∧
    ({ svcFixtureNode with token := none } : Service).token = none ∧
    ((wrapFunctions envFixture { svcFixtureNode with token := none } none).2 =
        .error msgNoToken ∧
      ∀ e ∈ (wrapFunctions envFixture { svcFixtureNode with token := none } none).1,
        e.isLog = true) :=
  ⟨by decide, rfl,
   C4_theorem envFixture { svcFixtureNode with token := none } none (by decide) rfl⟩

/-! ## Claim C9 -/

theorem map_fst_filter_mem (kv : List (Str × FunctionDecl)) (names : List Str) :
    (kv.filter (fun p => decide (p.1 ∈ names))).map Prod.fst =
      (kv.map Prod.fst).filter (fun n => decide (n ∈ names)) := by
  induction kv with
  | nil => rfl
  | cons a rest ih =>
    by_cases h : a.1 ∈ names <;> simp [h, ih]

/-- Claim C9: unknown names in the `wrapFunctions` filter list are silently
dropped — for a supported runtime the eligible set is exactly the
intersection of the filter with the declared function names — and a filter
consisting entirely of undeclared names yields an immediate successful
return whose only effects are log lines (no error, no install, no write). -/
theorem C9_theorem (env : Env) (service : Service) (names : List Str) :
    ((strStarts (str "nodejs") service.providerRuntime = true ∨
      strStarts (str "python3") service.providerRuntime = true) →
      (getFunctionsToWrap service (some names)).2.1.map Prod.fst =
        (service.functionsKV.map Prod.fst).filter (fun n => decide (n ∈ names))) ∧
    ((∀ n ∈ service.functionsKV.map Prod.fst, n ∉ names) →
      (wrapFunctions env service (some names)).2 = .ok service ∧
      ∀ e ∈ (wrapFunctions env service (some names)).1, e.isLog = true) := by
  constructor
  · intro hrt
    unfold getFunctionsToWrap
    by_cases hn : strStarts (str "nodejs") service.providerRuntime = true
    · rw [getFnsWith_nodejs hn]
      simp [map_fst_filter_mem]
    · have hp : strStarts (str "python3") service.providerRuntime = true := by
        rcases hrt with h | h
        · exact absurd h hn
        · exact h
      rw [getFnsWith_python (by simpa using hn) hp]
      simp [map_fst_filter_mem]
  · intro hall
    have hfil : service.functionsKV.filter (fun p => decide (p.1 ∈ names)) = [] := by
      rw [List.filter_eq_nil_iff]
      intro a ha
      simpa using hall a.1 (List.mem_map_of_mem Prod.fst ha)
    have hempty : (getFunctionsToWrap service (some names)).2.1 = [] := by
      unfold getFunctionsToWrap getFunctionsToWrapWith
      split
      · exact hfil
      · split
        · exact hfil
        · rfl
    unfold wrapFunctions
    rw [wrapFunctionsWith_empty hempty]
    refine ⟨rfl, ?_⟩
    intro e he
    simp at he
    rcases he with he | he
    · exact getFnsWith_logs service (some names) e he
    · subst he
      rfl

/-- Claim C9, witness: the nodejs fixture filtered to the undeclared name
`nope`. -/
theorem C9_witness :
    (∀ n ∈ svcFixtureNode.functionsKV.map Prod.fst, n ∉ [str "nope"]) ∧
    ((wrapFunctions envFixture svcFixtureNode (some [str "nope"])).2 =
        .ok svcFixtureNode ∧
      ∀ e ∈ (wrapFunctions envFixture svcFixtureNode (some [str "nope"])).1,
        e.isLog = true) :=
  ⟨by decide, (C9_theorem envFixture svcFixtureNode [str "nope"]).2 (by decide)⟩

/-! ## Claim C8 -/

/-- The cleanup pass, written as a case tree over the eligibility result. -/
theorem afterCreate_eq (env : Env) (service : Service) :
    afterCreateDeploymentArtifacts env service =
      (if (getFunctionsToWrap service none).2.1.length = 0 then
        ((getFunctionsToWrap service none).2.2, .ok ())
      else if (getFunctionsToWrap service none).1 = str "nodejs" then
        (((getFunctionsToWrap service none).2.2 ++
            [Effect.removeDir (folderPath env.servicePath)]) ++
          (uninstallLumigoNodejs env service).1,
         (uninstallLumigoNodejs env service).2)
      else ((getFunctionsToWrap service none).2.2 ++
          [Effect.removeDir (folderPath env.servicePath)], .ok ())) := by
  unfold afterCreateDeploymentArtifacts
  rcases hG : getFunctionsToWrap service none with ⟨rt, fns, lg⟩
  rcases hU : uninstallLumigoNodejs env service with ⟨ueffs, ures⟩
  simp only [hG, hU]

/-- No process-execution effect hides among the eligibility logs. -/
theorem getFns_no_exec (service : Service) (names : Option (List Str)) :
    ∀ c, Effect.execSync c ∉ (getFunctionsToWrap service names).2.2 := by
  intro c hc
  unfold getFunctionsToWrap at hc
  have := getFnsWith_logs service names (Effect.execSync c) hc
  simp [Effect.isLog] at this

/-- Claim C8: `cleanup` (the after-artifacts hook) is a no-op when the
eligible set is empty — its only effects are log lines, no directory removal
and no process execution; when the eligible set is non-empty it removes the
entire generated-artifacts directory; a dependency uninstall command runs
only for the nodejs family, and is skipped when the tracer dependency was
already present in the project manifest before the plugin installed it. -/
theorem C8_theorem (env : Env) (service : Service) :
    ((getFunctionsToWrap service none).2.1 = [] →
      (afterCreateDeploymentArtifacts env service).2 = .ok () ∧
      ∀ e ∈ (afterCreateDeploymentArtifacts env service).1, e.isLog = true) ∧
    ((getFunctionsToWrap service none).2.1 ≠ [] →
      Effect.removeDir (folderPath env.servicePath) ∈
        (afterCreateDeploymentArtifacts env service).1) ∧
    (env.nodeTracerInstalled = true →
      ∀ c, Effect.execSync c ∉ (afterCreateDeploymentArtifacts env service).1) ∧
    (strStarts (str "nodejs") service.providerRuntime = true →
      env.nodeTracerInstalled = false → nodePackageManagerOf service = str "npm" →
      (getFunctionsToWrap service none).2.1 ≠ [] →
      Effect.execSync (str "npm uninstall @lumigo/tracer") ∈
        (afterCreateDeploymentArtifacts env service).1) ∧
    (strStarts (str "nodejs") service.providerRuntime = false →
      ∀ c, Effect.execSync c ∉ (afterCreateDeploymentArtifacts env service).1) := by
  refine ⟨?_, ?_, ?_, ?_, ?_⟩
  · intro h
    rw [afterCreate_eq]
    simp [h]
    intro e he
    exact getFnsWith_logs service none e he
  · intro h
    rw [afterCreate_eq]
    have hlen : ¬ ((getFunctionsToWrap service none).2.1.length = 0) := by
      simpa [List.length_eq_zero] using h
    simp only [hlen, if_false]
    split <;> simp
  · intro hin c
    rw [afterCreate_eq]
    have hU : uninstallLumigoNodejs env service = ([], .ok ()) := by
      unfold uninstallLumigoNodejs
      simp [hin]
    rw [hU]
    split
    · exact getFns_no_exec service none c
    · split
      · simp only [List.append_nil]
        intro hc
        rcases List.mem_append.mp hc with hc | hc
        · exact getFns_no_exec service none c hc
        · simp at hc
      · intro hc
        rcases List.mem_append.mp hc with hc | hc
        · exact getFns_no_exec service none c hc
        · simp at hc
  · intro hn hni hpm h
    have hlen : ¬ ((getFunctionsToWrap service none).2.1.length = 0) := by
      simpa [List.length_eq_zero] using h
    have hcond : (getFunctionsToWrap service none).1 = str "nodejs" := by
      unfold getFunctionsToWrap
      rw [getFnsWith_nodejs hn]
    have hU : uninstallLumigoNodejs env service =
        ([slsLog (str "uninstalling @lumigo/tracer..."),
          Effect.execSync (str "npm uninstall @lumigo/tracer")], .ok ()) := by
      unfold uninstallLumigoNodejs
      simp [hni, hpm]
    rw [afterCreate_eq, hU, if_neg hlen, if_pos hcond]
    exact List.mem_append_right _ (by simp)
  · intro hn c
    have hrt : (getFunctionsToWrap service none).1 ≠ str "nodejs" := by
      unfold getFunctionsToWrap
      by_cases hp : strStarts (str "python3") service.providerRuntime = true
      · rw [getFnsWith_python hn hp]
        show str "python" ≠ str "nodejs"
        decide
      · rw [getFnsWith_unsupported hn (by simpa using hp)]
        show str "unsupported" ≠ str "nodejs"
        decide
    rw [afterCreate_eq, if_neg hrt]
    split
    · exact getFns_no_exec service none c
    · intro hc
      rcases List.mem_append.mp hc with hc | hc
      · exact getFns_no_exec service none c hc
      · simp at hc

/-- Claim C8, witness: the nodejs fixture with no pre-installed tracer —
cleanup removes the artifacts directory and runs the npm uninstall. -/
theorem C8_witness :
    (getFunctionsToWrap svcFixtureNode none).2.1 ≠ [] ∧
    Effect.removeDir (folderPath envFixture.servicePath) ∈
      (afterCreateDeploymentArtifacts envFixture svcFixtureNode).1 ∧
    Effect.execSync (str "npm uninstall @lumigo/tracer") ∈
      (afterCreateDeploymentArtifacts envFixture svcFixtureNode).1 :=
  ⟨by decide,
   (C8_theorem envFixture svcFixtureNode).2.1 (by decide),
   (C8_theorem envFixture svcFixtureNode).2.2.2.1 (by decide) rfl (by decide) (by decide)⟩

/-! ## Claim C10 -/

theorem handler_update_trans (f g k : FunctionDecl)
    (h1 : g = { f with handler := g.handler })
    (h2 : k = { g with handler := k.handler }) :
    k = { f with handler := k.handler } := by
  cases f
  cases g
  cases k
  simp_all

/-- `setFunctionHandler` changes at most the handler of the entries named
`n`, and nothing else. -/
theorem setFunctionHandler_forall₂ (kv : List (Str × FunctionDecl)) (n h : Str) :
    List.Forall₂ (fun a b => a.1 = b.1 ∧ b.2 = { a.2 with handler := b.2.handler } ∧
      (a.1 ∉ [n] → b = a)) kv (setFunctionHandler kv n h) := by
  induction kv with
  | nil => exact .nil
  | cons a rest ih =>
    unfold setFunctionHandler
    simp only [List.map_cons]
    refine .cons ?_ ih
    by_cases hn : a.1 = n
    · rw [if_pos hn]
      refine ⟨rfl, rfl, fun hmem => absurd ?_ hmem⟩
      simp [hn]
    · rw [if_neg hn]
      exact ⟨rfl, rfl, fun _ => rfl⟩

theorem forall₂_handler_comp {s₁ s₂ : List Str} {l₁ l₂ l₃ : List (Str × FunctionDecl)}
    (h12 : List.Forall₂ (fun a b => a.1 = b.1 ∧ b.2 = { a.2 with handler := b.2.handler } ∧
      (a.1 ∉ s₁ → b = a)) l₁ l₂)
    (h23 : List.Forall₂ (fun a b => a.1 = b.1 ∧ b.2 = { a.2 with handler := b.2.handler } ∧
      (a.1 ∉ s₂ → b = a)) l₂ l₃) :
    List.Forall₂ (fun a b => a.1 = b.1 ∧ b.2 = { a.2 with handler := b.2.handler } ∧
      (a.1 ∉ s₁ ++ s₂ → b = a)) l₁ l₃ := by
  induction h12 generalizing l₃ with
  | nil =>
    cases h23
    exact .nil
  | @cons a b la lb hab hrest ih =>
    cases h23 with
    | @cons _ c _ lc hbc hrest2 =>
      refine .cons ⟨hab.1.trans hbc.1, handler_update_trans _ _ _ hab.2.1 hbc.2.1, ?_⟩
        (ih hrest2)
      intro hmem
      simp only [List.mem_append, not_or] at hmem
      have hba := hab.2.2 hmem.1
      have hcb := hbc.2.2 (by rw [← hab.1]; exact hmem.2)
      exact hcb.trans hba

/-- The wrapping loop changes at most the handlers of the functions it was
given, leaving every other entry untouched. -/
theorem wrapLoop_forall₂ (create : Str → FunctionDecl → Str × List Effect)
    (fns : List (Str × FunctionDecl)) :
    ∀ kv, List.Forall₂ (fun a b => a.1 = b.1 ∧ b.2 = { a.2 with handler := b.2.handler } ∧
      (a.1 ∉ fns.map Prod.fst → b = a)) kv (wrapLoop create fns kv).1 := by
  induction fns with
  | nil =>
    intro kv
    refine List.forall₂_same.mpr ?_
    intro x _
    exact ⟨rfl, rfl, fun _ => rfl⟩
  | cons nf rest ih =>
    intro kv
    obtain ⟨n, f⟩ := nf
    have step := setFunctionHandler_forall₂ kv n (create n f).1
    have tail := ih (setFunctionHandler kv n (create n f).1)
    have comp := forall₂_handler_comp step tail
    simp only [List.map_cons]
    have : ([n] ++ rest.map Prod.fst) = n :: rest.map Prod.fst := rfl
    rw [this] at comp
    unfold wrapLoop
    rcases hc : create n f with ⟨hdl, ceffs⟩
    rcases hw : wrapLoop create rest (setFunctionHandler kv n hdl) with ⟨kvF, reffs⟩
    simp only [hc, hw]
    rw [hc] at comp
    rw [hw] at comp
    exact comp

theorem updatePackageInclude_frame (s : Service) :
    (updatePackageInclude s).functionsKV = s.functionsKV ∧
    (updatePackageInclude s).providerRuntime = s.providerRuntime ∧
    (updatePackageInclude s).region = s.region ∧
    (updatePackageInclude s).token = s.token ∧
    (updatePackageInclude s).edgeHost = s.edgeHost ∧
    (updatePackageInclude s).nodePackageManager = s.nodePackageManager ∧
    (updatePackageInclude s).plugins = s.plugins ∧
    (updatePackageInclude s).pythonRequirementsFileName = s.pythonRequirementsFileName ∧
    (updatePackageInclude s).nodeLayerVersion = s.nodeLayerVersion ∧
    (updatePackageInclude s).pythonLayerVersion = s.pythonLayerVersion := by
  unfold updatePackageInclude
  split <;> simp

theorem updatePackageInclude_package (s : Service) :
    (updatePackageInclude s).package = s.package ∨
    ∃ p, s.package = some p ∧ (updatePackageInclude s).package =
      some { p with includeList := some ((p.includeList.getD []) ++ [str "_lumigo/*"]) } := by
  unfold updatePackageInclude
  rcases hp : s.package with _ | p
  · left
    exact hp
  · right
    exact ⟨p, rfl, rfl⟩

/-- Shape of every successful wrap pass: either the untouched service (early
return) or the handler-rewriting loop followed by the package-include
update. -/
theorem wrapFunctionsWith_ok
    {getFns : Service → Option (List Str) → Str × List (Str × FunctionDecl) × List Effect}
    {env : Env} {service : Service} {names : Option (List Str)}
    {effs : List Effect} {s' : Service}
    (h : wrapFunctionsWith getFns env service names = (effs, Except.ok s')) :
    s' = service ∨
    ∃ kv, List.Forall₂ (fun a b => a.1 = b.1 ∧ b.2 = { a.2 with handler := b.2.handler } ∧
        (a.1 ∉ (getFns service names).2.1.map Prod.fst → b = a)) service.functionsKV kv ∧
      s' = updatePackageInclude { service with functionsKV := kv } := by
  unfold wrapFunctionsWith at h
  rcases hG : getFns service names with ⟨rt, fns, lg⟩
  simp only at h ⊢
  rw [hG] at h
  simp only at h ⊢
  by_cases hf : fns.length = 0
  · rw [if_pos hf] at h
    rw [Prod.mk.injEq] at h
    left
    injection h.2 with h2
    exact h2.symm
  · rw [if_neg hf] at h
    rcases ht : service.token with _ | tok
    · rw [ht] at h
      simp only at h
      rw [Prod.mk.injEq] at h
      cases h.2
    · rw [ht] at h
      simp only at h
      by_cases hrt : rt = str "nodejs"
      · rw [if_pos hrt] at h
        rcases hI : installLumigoNodejs env service with ⟨ieffs, ires⟩
        rw [hI] at h
        rcases ires with e | u
        · simp only at h
          rw [Prod.mk.injEq] at h
          cases h.2
        · simp only at h
          rcases hw : wrapLoop
              (fun n f => createWrappedNodejsFunction env.servicePath n f tok service.edgeHost)
              fns service.functionsKV with ⟨kvF, weffs⟩
          rw [hw] at h
          simp only at h
          rw [Prod.mk.injEq] at h
          injection h.2 with h2
          right
          refine ⟨kvF, ?_, h2.symm⟩
          have := wrapLoop_forall₂
            (fun n f => createWrappedNodejsFunction env.servicePath n f tok service.edgeHost)
            fns service.functionsKV
          rw [hw] at this
          exact this
      · rw [if_neg hrt] at h
        by_cases hrp : rt = str "python"
        · rw [if_pos hrp] at h
          rcases hE : ensureLumigoPythonIsInstalled env service with ⟨eeffs, eres⟩
          rw [hE] at h
          rcases eres with e | u
          · simp only at h
            rw [Prod.mk.injEq] at h
            cases h.2
          · simp only at h
            rcases hw : wrapLoop
                (fun n f => createWrappedPythonFunction env.servicePath n f tok)
                fns service.functionsKV with ⟨kvF, weffs⟩
            rw [hw] at h
            simp only at h
            rw [Prod.mk.injEq] at h
            injection h.2 with h2
            right
            refine ⟨kvF, ?_, h2.symm⟩
            have := wrapLoop_forall₂
              (fun n f => createWrappedPythonFunction env.servicePath n f tok)
              fns service.functionsKV
            rw [hw] at this
            exact this
        · rw [if_neg hrp] at h
          rw [Prod.mk.injEq] at h
          injection h.2 with h2
          right
          refine ⟨service.functionsKV, ?_, ?_⟩
          · refine List.forall₂_same.mpr ?_
            intro x _
            exact ⟨rfl, rfl, fun _ => rfl⟩
          · rw [← ht]
            exact h2.symm

/-- Claim C10: a completed (successful) `wrapFunctions` pass neither creates
nor deletes any function declaration and mutates only the `handler` field of
the functions it wraps — every entry of the registry keeps its name and all
of its non-handler fields, entries outside the eligible set are untouched —
and on the service itself only the package include list may change (the
`_lumigo/*` glob appended when a package object exists); every other service
field is unchanged. -/
theorem C10_theorem (env : Env) (service : Service) (names : Option (List Str))
    (effs : List Effect) (s' : Service)
    (h : wrapFunctions env service names = (effs, Except.ok s')) :
    List.Forall₂ (fun a b => a.1 = b.1 ∧ b.2 = { a.2 with handler := b.2.handler } ∧
      (a.1 ∉ (getFunctionsToWrap service names).2.1.map Prod.fst → b = a))
      service.functionsKV s'.functionsKV ∧
    s'.providerRuntime = service.providerRuntime ∧
    s'.region = service.region ∧
    s'.token = service.token ∧
    s'.edgeHost = service.edgeHost ∧
    s'.nodePackageManager = service.nodePackageManager ∧
    s'.plugins = service.plugins ∧
    s'.pythonRequirementsFileName = service.pythonRequirementsFileName ∧
    s'.nodeLayerVersion = service.nodeLayerVersion ∧
    s'.pythonLayerVersion = service.pythonLayerVersion ∧
    (service.package = none → s'.package = none) ∧
    (∀ p, service.package = some p → s'.package = some p ∨
        s'.package = some { p with includeList := some ((p.includeList.getD []) ++ [str "_lumigo/*"]) }) := by
  rcases wrapFunctionsWith_ok h with rfl | ⟨kv, hF, rfl⟩
  · exact ⟨List.forall₂_same.mpr (fun x _ => ⟨rfl, rfl, fun _ => rfl⟩),
      rfl, rfl, rfl, rfl, rfl, rfl, rfl, rfl, rfl,
      fun hp => hp, fun p hp => Or.inl hp⟩
  · have frame := updatePackageInclude_frame { service with functionsKV := kv }
    refine ⟨?_, frame.2.1, frame.2.2.1, frame.2.2.2.1, frame.2.2.2.2.1,
      frame.2.2.2.2.2.1, frame.2.2.2.2.2.2.1, frame.2.2.2.2.2.2.2.1,
      frame.2.2.2.2.2.2.2.2.1, frame.2.2.2.2.2.2.2.2.2, ?_, ?_⟩
    · rw [frame.1]
      exact hF
    · intro hp
      rcases updatePackageInclude_package { service with functionsKV := kv } with
        hup | ⟨q, hXq, hup⟩
      · exact hup.trans hp
      · have hcontra : some q = none :=
          (Eq.symm (α := Option Package) hXq).trans hp
        cases hcontra
    · intro p hp
      rcases updatePackageInclude_package { service with functionsKV := kv } with
        hup | ⟨q, hXq, hup⟩
      · exact Or.inl (hup.trans hp)
      · have hpq : some q = some p :=
          (Eq.symm (α := Option Package) hXq).trans hp
        injection hpq with hpq
        subst hpq
        exact Or.inr hup

/-- Claim C10, witness: the nodejs fixture run; only `hello`'s handler
changes. -/
theorem C10_witness :
    wrapFunctions envFixture svcFixtureNode none =
      ([slsLog (str "there are 1 function(s) to wrap..."),
        slsLog (str "installing @lumigo/tracer..."),
        Effect.execSync (str "npm install --no-save @lumigo/tracer@latest"),
        Effect.outputFile (str "/sp/_lumigo/hello.js")
          (nodeWrapperContent (str "hello.world") (str "test-token") none)],
       Except.ok { svcFixtureNode with
         functionsKV := [(str "hello", { handler := str "_lumigo/hello.world" })] }) ∧
    List.Forall₂ (fun a b => a.1 = b.1 ∧ b.2 = { a.2 with handler := b.2.handler } ∧
      (a.1 ∉ (getFunctionsToWrap svcFixtureNode none).2.1.map Prod.fst → b = a))
      svcFixtureNode.functionsKV
      ({ svcFixtureNode with
         functionsKV := [(str "hello", { handler := str "_lumigo/hello.world" })] }
        : Service).functionsKV :=
  ⟨by decide,
   (C10_theorem envFixture svcFixtureNode none
      [slsLog (str "there are 1 function(s) to wrap..."),
       slsLog (str "installing @lumigo/tracer..."),
       Effect.execSync (str "npm install --no-save @lumigo/tracer@latest"),
       Effect.outputFile (str "/sp/_lumigo/hello.js")
         (nodeWrapperContent (str "hello.world") (str "test-token") none)]
      { svcFixtureNode with
        functionsKV := [(str "hello", { handler := str "_lumigo/hello.world" })] }
      (by decide)).1⟩

/-! ## Claim C2 -/

theorem getFns_no_write (service : Service) (names : Option (List Str)) :
    ∀ p c, Effect.outputFile p c ∉ (getFunctionsToWrap service names).2.2 := by
  intro p c hc
  unfold getFunctionsToWrap at hc
  have := getFnsWith_logs service names (Effect.outputFile p c) hc
  simp [Effect.isLog] at this

theorem installLumigoNodejs_no_write (env : Env) (service : Service) :
    ∀ p c, Effect.outputFile p c ∉ (installLumigoNodejs env service).1 := by
  intro p c hc
  unfold installLumigoNodejs at hc
  split at hc
  · cases hc
  · split at hc
    · simp [slsLog] at hc
    · split at hc
      · simp [slsLog] at hc
      · simp [slsLog] at hc

theorem ensure_no_write (env : Env) (service : Service) :
    ∀ p c, Effect.outputFile p c ∉ (ensureLumigoPythonIsInstalled env service).1 := by
  intro p c hc
  unfold ensureLumigoPythonIsInstalled at hc
  simp only at hc
  split at hc
  · rcases List.mem_append.mp hc with hc | hc
    · simp [slsLog] at hc
    · exact getFns_no_write service none p c hc
  · simp [slsLog] at hc

/-- The effect list of the wrapping loop is the concatenation of each
function's creation effects. -/
theorem wrapLoop_effects (create : Str → FunctionDecl → Str × List Effect)
    (fns : List (Str × FunctionDecl)) :
    ∀ kv, (wrapLoop create fns kv).2 = fns.flatMap (fun p => (create p.1 p.2).2) := by
  induction fns with
  | nil => intro kv; rfl
  | cons nf rest ih =>
    intro kv
    obtain ⟨n, f⟩ := nf
    unfold wrapLoop
    rcases hc : create n f with ⟨hdl, ceffs⟩
    rcases hw : wrapLoop create rest (setFunctionHandler kv n hdl) with ⟨kvF, reffs⟩
    simp only [hc, hw, List.flatMap_cons]
    have := ih (setFunctionHandler kv n hdl)
    rw [hw] at this
    simp only at this
    rw [this]

/-- Every file-write of a wrap pass is the artifact of one of the eligible
functions, at `_lumigo/<localName>.js` or `_lumigo/<localName>.py`. -/
theorem wrapFunctionsWith_writes
    {getFns : Service → Option (List Str) → Str × List (Str × FunctionDecl) × List Effect}
    (env : Env) (service : Service) (names : Option (List Str))
    (hlogs : ∀ e ∈ (getFns service names).2.2, e.isLog = true) :
    ∀ p c, Effect.outputFile p c ∈ (wrapFunctionsWith getFns env service names).1 →
      ∃ nf, nf ∈ (getFns service names).2.1 ∧
        (p = pathJoin (folderPath env.servicePath) (nf.1 ++ str ".js") ∨
         p = pathJoin (folderPath env.servicePath) (nf.1 ++ str ".py")) := by
  intro p c hc
  have hlogs2 : Effect.outputFile p c ∉ (getFns service names).2.2 := by
    intro hx
    have := hlogs _ hx
    simp [Effect.isLog] at this
  unfold wrapFunctionsWith at hc
  rcases hG : getFns service names with ⟨rt, fns, lg⟩
  rw [hG] at hlogs2
  simp only at hlogs2
  simp only at hc ⊢
  rw [hG] at hc
  simp only at hc
  by_cases hf : fns.length = 0
  · rw [if_pos hf] at hc
    simp only at hc
    rcases List.mem_append.mp hc with hc | hc
    · exact absurd hc hlogs2
    · simp [slsLog] at hc
  · rw [if_neg hf] at hc
    rcases ht : service.token with _ | tok
    · rw [ht] at hc
      simp only at hc
      rcases List.mem_append.mp hc with hc | hc
      · exact absurd hc hlogs2
      · simp [slsLog] at hc
    · rw [ht] at hc
      simp only at hc
      by_cases hrt : rt = str "nodejs"
      · rw [if_pos hrt] at hc
        rcases hI : installLumigoNodejs env service with ⟨ieffs, ires⟩
        rw [hI] at hc
        rcases ires with e | u
        · simp only at hc
          rcases List.mem_append.mp hc with hc | hc
          · rcases List.mem_append.mp hc with hc | hc
            · exact absurd hc hlogs2
            · simp [slsLog] at hc
          · have := installLumigoNodejs_no_write env service p c
            rw [hI] at this
            exact absurd hc this
        · simp only at hc
          rcases List.mem_append.mp hc with hc | hc
          · rcases List.mem_append.mp hc with hc | hc
            · rcases List.mem_append.mp hc with hc | hc
              · exact absurd hc hlogs2
              · simp [slsLog] at hc
            · have := installLumigoNodejs_no_write env service p c
              rw [hI] at this
              exact absurd hc this
          · rw [wrapLoop_effects] at hc
            rcases List.mem_flatMap.mp hc with ⟨nf, hnf, hin⟩
            simp only [createWrappedNodejsFunction, List.mem_singleton,
              Effect.outputFile.injEq] at hin
            exact ⟨nf, hnf, Or.inl hin.1⟩
      · rw [if_neg hrt] at hc
        by_cases hrp : rt = str "python"
        · rw [if_pos hrp] at hc
          rcases hE : ensureLumigoPythonIsInstalled env service with ⟨eeffs, eres⟩
          rw [hE] at hc
          rcases eres with e | u
          · simp only at hc
            rcases List.mem_append.mp hc with hc | hc
            · rcases List.mem_append.mp hc with hc | hc
              · exact absurd hc hlogs2
              · simp [slsLog] at hc
            · have := ensure_no_write env service p c
              rw [hE] at this
              exact absurd hc this
          · simp only at hc
            rcases List.mem_append.mp hc with hc | hc
            · rcases List.mem_append.mp hc with hc | hc
              · rcases List.mem_append.mp hc with hc | hc
                · exact absurd hc hlogs2
                · simp [slsLog] at hc
              · have := ensure_no_write env service p c
                rw [hE] at this
                exact absurd hc this
            · rw [wrapLoop_effects] at hc
              rcases List.mem_flatMap.mp hc with ⟨nf, hnf, hin⟩
              simp only [createWrappedPythonFunction, List.mem_singleton,
                Effect.outputFile.injEq] at hin
              exact ⟨nf, hnf, Or.inr hin.1⟩
        · rw [if_neg hrp] at hc
          rcases List.mem_append.mp hc with hc | hc
          · exact absurd hc hlogs2
          · simp [slsLog] at hc

/-- In a registry with no duplicate local names, a name determines its
declaration. -/
theorem key_unique {kv : List (Str × FunctionDecl)}
    (hnd : (kv.map Prod.fst).Nodup) {k : Str} {v w : FunctionDecl}
    (hv : (k, v) ∈ kv) (hw : (k, w) ∈ kv) : v = w := by
  induction kv with
  | nil => cases hv
  | cons a rest ih =>
    simp only [List.map_cons, List.nodup_cons] at hnd
    rcases List.mem_cons.mp hv with hv1 | hv1 <;> rcases List.mem_cons.mp hw with hw1 | hw1
    · have : (k, v) = (k, w) := hv1.trans hw1.symm
      injection this
    · exfalso
      apply hnd.1
      rw [← hv1]
      exact List.mem_map.mpr ⟨(k, w), hw1, rfl⟩
    · exfalso
      apply hnd.1
      rw [← hw1]
      exact List.mem_map.mpr ⟨(k, v), hv1, rfl⟩
    · exact ih hnd.2 hv1 hw1

theorem getFnsWith_mem {keep : List Str → Str × FunctionDecl → Bool}
    {service : Service} {names : Option (List Str)} {nf : Str × FunctionDecl}
    (h : nf ∈ (getFunctionsToWrapWith keep service names).2.1) :
    nf ∈ service.functionsKV ∧
    keep (names.getD (service.functionsKV.map Prod.fst)) nf = true := by
  unfold getFunctionsToWrapWith at h
  split at h
  · exact List.mem_filter.mp h
  · split at h
    · exact List.mem_filter.mp h
    · cases h

theorem forall₂_mem_preserved {ws : List Str}
    {l₁ l₂ : List (Str × FunctionDecl)}
    (hF : List.Forall₂ (fun a b => a.1 = b.1 ∧ b.2 = { a.2 with handler := b.2.handler } ∧
      (a.1 ∉ ws → b = a)) l₁ l₂)
    {k : Str} {v : FunctionDecl} (hmem : (k, v) ∈ l₁) (hk : k ∉ ws) :
    (k, v) ∈ l₂ := by
  induction hF with
  | nil => cases hmem
  | @cons a b la lb hab hrest ih =>
    rcases List.mem_cons.mp hmem with h1 | h1
    · have hb : b = a := hab.2.2 (by rw [← h1]; exact hk)
      rw [hb, ← h1]
      exact List.mem_cons_self _ _
    · exact List.mem_cons_of_mem _ (ih h1)

theorem artifact_path_inj {sp a b e₁ e₂ : Str}
    (he₁ : e₁ = str ".js" ∨ e₁ = str ".py") (he₂ : e₂ = str ".js" ∨ e₂ = str ".py")
    (h : pathJoin (folderPath sp) (a ++ e₁) = pathJoin (folderPath sp) (b ++ e₂)) :
    a = b := by
  have hne := folderPath_ne_dot sp
  unfold pathJoin at h
  rw [if_neg hne, if_neg hne] at h
  have h2 : a ++ e₁ = b ++ e₂ := by
    have h3 := List.append_cancel_left h
    injection h3
  have hlen : e₁.length = e₂.length := by
    rcases he₁ with rfl | rfl <;> rcases he₂ with rfl | rfl <;> decide
  exact (List.append_inj' h2 hlen).1

/-- Claim C2 (spec-modelled eligibility): under the spec's opt-out-aware wrap
pass, a declared function carrying the per-function disable flag never has a
wrapper artifact written for it and never has its declaration (in particular
its handler) mutated; and the eligible set is exactly the declared functions
whose runtime family is supported and whose opt-out flag is not set. -/
theorem C2_theorem (env : Env) (service : Service) (ln : Str) (f : FunctionDecl)
    (hnd : (service.functionsKV.map Prod.fst).Nodup)
    (hmem : (ln, f) ∈ service.functionsKV) (hopt : optedOut f = true) :
    (∀ c ext, (ext = str ".js" ∨ ext = str ".py") →
      Effect.outputFile (pathJoin (folderPath env.servicePath) (ln ++ ext)) c ∉
        (wrapFunctionsSpec env service none).1) ∧
    (∀ s', (wrapFunctionsSpec env service none).2 = Except.ok s' →
      (ln, f) ∈ s'.functionsKV) ∧
    ((strStarts (str "nodejs") service.providerRuntime = true ∨
      strStarts (str "python3") service.providerRuntime = true) →
      (getFunctionsToWrapSpec service none).2.1 =
        service.functionsKV.filter (fun p => ! optedOut p.2)) ∧
    (strStarts (str "nodejs") service.providerRuntime = false →
      strStarts (str "python3") service.providerRuntime = false →
      (getFunctionsToWrapSpec service none).2.1 = []) := by
  have hlnot : ln ∉ (getFunctionsToWrapSpec service none).2.1.map Prod.fst := by
    intro hin
    rcases List.mem_map.mp hin with ⟨nf, hnf, hfst⟩
    have hm := getFnsWith_mem hnf
    have hkv : nf ∈ service.functionsKV := hm.1
    have hkeep := hm.2
    simp only [Bool.and_eq_true, Bool.not_eq_true'] at hkeep
    have hnf2 : (ln, nf.2) ∈ service.functionsKV := by
      rw [← hfst]
      exact hkv
    have := key_unique hnd hmem hnf2
    rw [this, hkeep.2] at hopt
    exact absurd hopt (by decide)
  refine ⟨?_, ?_, ?_, ?_⟩
  · intro c ext hext hcmem
    have hlogsSpec : ∀ e ∈ (getFunctionsToWrapSpec service none).2.2, e.isLog = true := by
      intro e he
      exact getFnsWith_logs service none e he
    have hw := @wrapFunctionsWith_writes getFunctionsToWrapSpec env service none
      hlogsSpec _ _ hcmem
    rcases hw with ⟨nf, hnf, hpath⟩
    have hln : ln = nf.1 := by
      rcases hpath with hp | hp
      · exact artifact_path_inj hext (Or.inl rfl) hp
      · exact artifact_path_inj hext (Or.inr rfl) hp
    apply hlnot
    rw [hln]
    exact List.mem_map_of_mem Prod.fst hnf
  · intro s' hs
    have hpair : wrapFunctionsSpec env service none =
        ((wrapFunctionsSpec env service none).1, Except.ok s') := by
      rw [← hs]
    rcases wrapFunctionsWith_ok hpair with rfl | ⟨kv, hF, rfl⟩
    · exact hmem
    · have frame := updatePackageInclude_frame { service with functionsKV := kv }
      rw [frame.1]
      exact forall₂_mem_preserved hF hmem hlnot
  · intro hrt
    have hcongr : service.functionsKV.filter
        (fun p => decide (p.1 ∈ service.functionsKV.map Prod.fst) && ! optedOut p.2) =
        service.functionsKV.filter (fun p => ! optedOut p.2) := by
      apply List.filter_congr
      intro x hx
      simp [List.mem_map_of_mem Prod.fst hx]
    unfold getFunctionsToWrapSpec
    rcases hrt with hn | hp
    · rw [getFnsWith_nodejs hn]
      exact hcongr
    · by_cases hn : strStarts (str "nodejs") service.providerRuntime = true
      · rw [getFnsWith_nodejs hn]
        exact hcongr
      · rw [getFnsWith_python (by simpa using hn) hp]
        exact hcongr
  · intro h1 h2
    unfold getFunctionsToWrapSpec
    rw [getFnsWith_unsupported h1 h2]

/-- Claim C2, witness: the fixture with the opted-out `skippy` function. -/
theorem C2_witness :
    (svcFixtureSkip.functionsKV.map Prod.fst).Nodup ∧
    ((str "skippy", ({ handler := str "will.skip", lumigoEnabled := some false } :
        FunctionDecl)) ∈ svcFixtureSkip.functionsKV) ∧
    optedOut { handler := str "will.skip", lumigoEnabled := some false } = true ∧
    (∀ c ext, (ext = str ".js" ∨ ext = str ".py") →
      Effect.outputFile (pathJoin (folderPath envFixture.servicePath) (str "skippy" ++ ext)) c ∉
        (wrapFunctionsSpec envFixture svcFixtureSkip none).1) ∧
    (getFunctionsToWrapSpec svcFixtureSkip none).2.1 =
      svcFixtureSkip.functionsKV.filter (fun p => ! optedOut p.2) :=
  ⟨by decide, by decide, by decide,
   (C2_theorem envFixture svcFixtureSkip (str "skippy")
      { handler := str "will.skip", lumigoEnabled := some false }
      (by decide) (by decide) (by decide)).1,
   (C2_theorem envFixture svcFixtureSkip (str "skippy")
      { handler := str "will.skip", lumigoEnabled := some false }
      (by decide) (by decide) (by decide)).2.2.1 (Or.inl (by decide))⟩

/-! ## Claim C7 -/

theorem getFnsWith_unsupported_empty
    {keep : List Str → Str × FunctionDecl → Bool}
    {service : Service} {names : Option (List Str)}
    (h : (getFunctionsToWrapWith keep service names).1 = str "unsupported") :
    (getFunctionsToWrapWith keep service names).2.1 = [] := by
  by_cases h1 : strStarts (str "nodejs") service.providerRuntime = true
  · rw [getFnsWith_nodejs h1] at h
    simp only at h
    exact absurd h (by decide)
  · by_cases h2 : strStarts (str "python3") service.providerRuntime = true
    · rw [getFnsWith_python (by simpa using h1) h2] at h
      simp only at h
      exact absurd h (by decide)
    · rw [getFnsWith_unsupported (by simpa using h1) (by simpa using h2)]

/-- Claim C7 (spec-modelled): with layer mode enabled, the wrap pass writes
no wrapper file and performs no dependency install — its only effects are
log lines — and every eligible function is rewritten in place: its handler
becomes the fixed well-known layer entry point for the runtime family,
exactly one layer reference is attached (the caller-pinned version, or the
`latest` marker when none is pinned), the function's original handler
reference is recorded in the `LUMIGO_ORIGINAL_HANDLER` environment variable,
and its remaining fields are untouched. -/
theorem C7_theorem (service : Service) (names : Option (List Str))
    (ln : Str) (f : FunctionDecl)
    (helig : (ln, f) ∈ (getFunctionsToWrapSpec service names).2.1) :
    (∀ e ∈ (wrapFunctionsUseLayers service names).1, e.isLog = true) ∧
    (∃ g, (ln, g) ∈ (wrapFunctionsUseLayers service names).2.functionsKV ∧
      g.handler = layerEntryPoint (getFunctionsToWrapSpec service names).1 ∧
      g.layers = [layerRef service.region (getFunctionsToWrapSpec service names).1
        (layerVersionOf service (getFunctionsToWrapSpec service names).1)] ∧
      (lumigoOriginalHandlerKey, f.handler) ∈ g.environment ∧
      g.lumigoEnabled = f.lumigoEnabled ∧ g.extraFields = f.extraFields) := by
  have hlogs : ∀ e ∈ (getFunctionsToWrapSpec service names).2.2, e.isLog = true := by
    intro e he
    unfold getFunctionsToWrapSpec at he
    exact getFnsWith_logs service names e he
  have hkvmem : (ln, f) ∈ service.functionsKV := by
    have := getFnsWith_mem
      (show (ln, f) ∈ (getFunctionsToWrapWith
        (fun ns p => decide (p.1 ∈ ns) && ! optedOut p.2) service names).2.1 from helig)
    exact this.1
  have hnotun : (getFunctionsToWrapSpec service names).1 ≠ str "unsupported" := by
    intro hu
    have hempty : (getFunctionsToWrapSpec service names).2.1 = [] := by
      unfold getFunctionsToWrapSpec at hu ⊢
      exact getFnsWith_unsupported_empty hu
    rw [hempty] at helig
    cases helig
  unfold wrapFunctionsUseLayers
  rcases hG : getFunctionsToWrapSpec service names with ⟨rt, fns, lg⟩
  rw [hG] at hlogs hnotun helig
  simp only at hlogs hnotun helig ⊢
  rw [if_neg hnotun]
  refine ⟨hlogs, ?_⟩
  refine ⟨wrapFunctionUseLayers (layerEntryPoint rt)
    (layerRef service.region rt (layerVersionOf service rt)) f, ?_, rfl, rfl, ?_, rfl, rfl⟩
  · refine List.mem_map.mpr ⟨(ln, f), hkvmem, ?_⟩
    have hln : ln ∈ fns.map Prod.fst := List.mem_map_of_mem Prod.fst helig
    simp [hln]
  · unfold wrapFunctionUseLayers
    simp

/-- Claim C7, witness: the spec-modelled layer pass applied to the `hello`
function of the fixture (nodejs family, no pinned version). -/
theorem C7_witness :
    ((str "hello", ({ handler := str "hello.world" } : FunctionDecl)) ∈
      (getFunctionsToWrapSpec svcFixtureNode none).2.1) ∧
    ((∀ e ∈ (wrapFunctionsUseLayers svcFixtureNode none).1, e.isLog = true) ∧
    (∃ g, (str "hello", g) ∈ (wrapFunctionsUseLayers svcFixtureNode none).2.functionsKV ∧
      g.handler = layerEntryPoint (getFunctionsToWrapSpec svcFixtureNode none).1 ∧
      g.layers = [layerRef svcFixtureNode.region (getFunctionsToWrapSpec svcFixtureNode none).1
        (layerVersionOf svcFixtureNode (getFunctionsToWrapSpec svcFixtureNode none).1)] ∧
      (lumigoOriginalHandlerKey,
        ({ handler := str "hello.world" } : FunctionDecl).handler) ∈ g.environment ∧
      g.lumigoEnabled = ({ handler := str "hello.world" } : FunctionDecl).lumigoEnabled ∧
      g.extraFields = ({ handler := str "hello.world" } : FunctionDecl).extraFields)) :=
  ⟨by decide,
   C7_theorem svcFixtureNode none (str "hello") { handler := str "hello.world" } (by decide)⟩
